import Mathlib

/-!
PapiIOGroup: the PAPI hardware-counter adapter of `papi_iogroup.cpp`.

A shallow embedding of the class `PapiIOGroup` and of its member functions,
followed by the properties of the push / read_batch / sample protocol.

Modelling conventions.

* `int`, `size_t` and `long long` are unbounded integers (`Int`, `Nat`).  Every
  index of the program is bounded by the size of one of its vectors; the
  conversions between `int` and `size_t` are the identity on `[0, 2^31)`,
  where the sizes of an adapter live, and a negative `int` used as a vector
  index is out of range.
* `double` is an arbitrary type `D`; the only doubles the program ever makes are
  `static_cast<double>` of an integer, which is the field `static_cast_double`
  of `Host`.  Nothing is assumed about that function.
* The constants of the headers `papi.h` and `geopm/*.hpp` are the fields of `Host`.
* The PAPI library is an external collaborator: what its calls return is an
  input of the model (`PapiLibrary` for construction, the `PAPI_read` arguments
  of `read_batch` and `read_signal`).  Each response is indexed by the place of
  the call (core, position in the event list), so any behaviour of the library
  is one such input.  Where a property needs the library to behave in some
  way, that is a stated premise on these answers: `setup_succeeds` (the set-up
  calls succeed) and `refuses_repeated_event` (an event that is already in the
  event set is not added again).
* A non-const member function returns an `Outcome`: the value returned or the
  exception thrown, together with the state of the object afterwards.  An
  out-of-range `operator[]` on a vector is undefined behaviour in C++ and is
  the outcome `undefined`, which carries no state.
* `std::map<std::string, size_t>` is an association list with distinct keys,
  `std::set<std::string>` is a `Finset String`.
-/

/-- The constants the source takes from `papi.h` and the GEOPM headers, and the
conversion `static_cast<double>` from `long long` (or from an `int` literal). -/
structure Host (D : Type) where
  PAPI_OK : Int
  PAPI_VER_CURRENT : Int
  PAPI_NULL : Int
  GEOPM_DOMAIN_CORE : Int
  GEOPM_DOMAIN_INVALID : Int
  GEOPM_ERROR_INVALID : Int
  static_cast_double : Int → D

/-- What the PAPI library answers during construction.  A response that the
source reads once per core takes the core index, one that it reads once per
core and event takes the core index and the position of the event in the list. -/
structure PapiLibrary where
  PAPI_library_init : Int
  PAPI_multiplex_init : Int
  PAPI_set_granularity : Int
  sockets : Nat
  cores : Nat
  PAPI_create_eventset : Nat → Int × Int
  PAPI_assign_eventset_component : Nat → Int
  PAPI_set_opt : Nat → Int
  PAPI_set_multiplex : Nat → Int
  PAPI_event_name_to_code : Nat → Nat → Int × Int
  PAPI_add_event : Nat → Nat → Int
  PAPI_start : Nat → Int

/-- The two kinds of exception of the source: `geopm::Exception(what, err, ...)`
and the `std::runtime_error` thrown by `die(file, line, call, retval)`, whose
text is made from `call` and `retval`. -/
inductive Error where
  | Exception (what : String) (err : Int)
  | runtime_error (call : String) (retval : Int)
  deriving DecidableEq

/-- The result of a non-const member function on an object of state `σ`. -/
inductive Outcome (σ α : Type) where
  | ok (val : α) (state : σ)
  | throws (e : Error) (state : σ)
  | undefined
  deriving DecidableEq

namespace Outcome

/-- The state of the object after the call, when the call has a defined result. -/
def state? {σ α : Type} : Outcome σ α → Option σ
  | ok _ s => some s
  | throws _ s => some s
  | undefined => none

/-- The value the call returned, when it returned. -/
def value? {σ α : Type} : Outcome σ α → Option α
  | ok v _ => some v
  | throws _ _ => none
  | undefined => none

/-- The exception the call threw, when it threw. -/
def error? {σ α : Type} : Outcome σ α → Option Error
  | ok _ _ => none
  | throws e _ => some e
  | undefined => none

end Outcome

/-- The function `die`: always throws. -/
def die (call : String) (retval : Int) : Error := Error.runtime_error call retval

/-- The struct `signal_s`. -/
structure signal_s where
  m_description : String
  m_do_read : Bool
  deriving DecidableEq

/-- The data members of the class `PapiIOGroup`. -/
structure PapiIOGroup (D : Type) where
  m_signal_offsets : List (String × Nat)
  m_signals_per_core : List (List signal_s)
  m_papi_values_per_core : List (List Int)
  m_batch_values : List D
  m_papi_event_sets : List Int
  deriving DecidableEq

/-! ## The standard library pieces the constructor uses -/

/-- The function `std::isspace` in the "C" locale. -/
def isspace (c : Char) : Bool :=
  c = ' ' || c = '\t' || c = '\n' || c = '\x0b' || c = '\x0c' || c = '\r'

/-- Repeated `operator>>` into a `std::string`, as `std::istream_iterator` does
it: skip the leading whitespace, take the characters up to the next whitespace,
stop when nothing could be taken.  `fuel` bounds the number of extractions. -/
def extract_words : Nat → List Char → List String
  | 0, _ => []
  | fuel + 1, cs =>
    let rest := cs.dropWhile isspace
    let word := rest.takeWhile (fun c => !isspace c)
    if word = [] then []
    else String.mk word :: extract_words fuel (rest.dropWhile (fun c => !isspace c))

/-- The vector built from `istream_iterator<std::string>(ss)` to the end
iterator.  A string of `n` characters holds fewer than `n + 1` words. -/
def istream_words (str : String) : List String :=
  extract_words (str.data.length + 1) str.data

/-- The whitespace-separated tokens of a string, in the words of the
specification: cut the string at every whitespace character and keep the
pieces that are not empty.  It is compared with `istream_words` below. -/
def whitespace_separated_tokens (str : String) : List String :=
  ((str.data.splitOnP isspace).filter (fun w => !w.isEmpty)).map String.mk

/-- Lookup `std::map::find`: the mapped value, or `none` for `end()`. -/
def map_find (m : List (String × Nat)) (key : String) : Option Nat :=
  match m with
  | [] => none
  | (k, v) :: rest => if k = key then some v else map_find rest key

/-- Insertion `std::map::emplace`: a key that is present keeps its value. -/
def map_emplace (m : List (String × Nat)) (key : String) (val : Nat) : List (String × Nat) :=
  match map_find m key with
  | some _ => m
  | none => m ++ [(key, val)]

namespace PapiIOGroup

variable {D : Type}

/-! ## The constructor -/

/-- The loop of the constructor over `event_names` for one core, from position
`j` on: look the event up, add it to the event set, append its `signal_s`.
The stream `oss` is not emptied by `oss.clear()`, so the second message
follows the first one. -/
def add_events (K : Host D) (L : PapiLibrary) (core : Nat) :
    Nat → List String → List signal_s → Except Error (List signal_s)
  | _, [], sigs => Except.ok sigs
  | j, event_name :: rest, sigs =>
    if (L.PAPI_event_name_to_code core j).1 ≠ K.PAPI_OK then
      Except.error (die ("PAPI_event_name_to_code(\"" ++ event_name ++ "\")")
        (L.PAPI_event_name_to_code core j).1)
    else if L.PAPI_add_event core j ≠ K.PAPI_OK then
      Except.error (die ("PAPI_event_name_to_code(\"" ++ event_name ++ "\")" ++
        "PAPI_add_event(\"" ++ event_name ++ "\")") (L.PAPI_add_event core j))
    else
      add_events K L core (j + 1) rest
        (sigs ++ [{ m_description := "PAPI Counter: " ++ event_name, m_do_read := false }])

/-- The body of the constructor's loop over the cores, for core `i`.  The
members are written once the calls for the core have succeeded: an exception
discards the object, so no state between two calls can be observed. -/
def setup_core (K : Host D) (L : PapiLibrary) (event_names : List String) (i : Nat)
    (s : PapiIOGroup D) : Except Error (PapiIOGroup D) :=
  if (L.PAPI_create_eventset i).1 ≠ K.PAPI_OK then
    Except.error (die "PAPI_create_eventset" (L.PAPI_create_eventset i).1)
  else if L.PAPI_assign_eventset_component i ≠ K.PAPI_OK then
    Except.error (die "PAPI_assign_eventset_component" (L.PAPI_assign_eventset_component i))
  else if L.PAPI_set_opt i ≠ K.PAPI_OK then
    Except.error (die "PAPI_set_opt(PAPI_CPU_ATTACH)" (L.PAPI_set_opt i))
  else if L.PAPI_set_multiplex i ≠ K.PAPI_OK then
    Except.error (die "PAPI_set_multiplex" (L.PAPI_set_multiplex i))
  else
    match add_events K L i 0 event_names [] with
    | Except.error e => Except.error e
    | Except.ok sigs =>
      if L.PAPI_start i ≠ K.PAPI_OK then
        Except.error (die ("PAPI_start CPU " ++ toString i) (L.PAPI_start i))
      else
        Except.ok
          { s with
            m_papi_event_sets := s.m_papi_event_sets.set i (L.PAPI_create_eventset i).2
            m_signals_per_core := s.m_signals_per_core ++ [sigs]
            m_papi_values_per_core :=
              s.m_papi_values_per_core ++ [List.replicate event_names.length 0] }

/-- The loop `for (int i = 0; i < num_cores; ++i)`: `todo` cores are left,
starting with core `i`. -/
def setup_cores (K : Host D) (L : PapiLibrary) (event_names : List String) :
    Nat → Nat → PapiIOGroup D → Except Error (PapiIOGroup D)
  | 0, _, s => Except.ok s
  | todo + 1, i, s =>
    match setup_core K L event_names i s with
    | Except.error e => Except.error e
    | Except.ok s1 => setup_cores K L event_names todo (i + 1) s1

/-- The last loop of the constructor: `m_signal_offsets.emplace(event_names[i], i)`
for every position `i`, from position `i` on. -/
def fill_offsets : Nat → List String → List (String × Nat) → List (String × Nat)
  | _, [], m => m
  | i, event_name :: rest, m => fill_offsets (i + 1) rest (map_emplace m event_name i)

/-- The first block of the constructor: the vector `event_names`, empty when
`std::getenv("GEOPM_PAPI_EVENTS")` is the null pointer. -/
def event_names (env_str : Option String) : List String :=
  match env_str with
  | none => []
  | some str => istream_words str

/-- The constructor `PapiIOGroup::PapiIOGroup()`.  `env_str` is the result of
`std::getenv("GEOPM_PAPI_EVENTS")`.  An exception leaves no object. -/
def construct (K : Host D) (L : PapiLibrary) (env_str : Option String) :
    Except Error (PapiIOGroup D) :=
  let event_names : List String := PapiIOGroup.event_names env_str
  if L.PAPI_library_init ≠ K.PAPI_VER_CURRENT then
    Except.error (die "PAPI_library_init" L.PAPI_library_init)
  else if L.PAPI_multiplex_init ≠ K.PAPI_OK then
    Except.error (die "PAPI_multiplex_init" L.PAPI_multiplex_init)
  else if L.PAPI_set_granularity ≠ K.PAPI_OK then
    Except.error (die "PAPI_set_granularity(PAPI_GRN_SYS)" L.PAPI_set_granularity)
  else
    let num_cores := L.sockets * L.cores
    match setup_cores K L event_names num_cores 0
        { m_signal_offsets := []
          m_signals_per_core := []
          m_papi_values_per_core := []
          m_batch_values := []
          m_papi_event_sets := List.replicate num_cores K.PAPI_NULL } with
    | Except.error e => Except.error e
    | Except.ok s =>
      Except.ok
        { s with
          m_batch_values :=
            List.replicate (num_cores * event_names.length) (K.static_cast_double 0)
          m_signal_offsets := fill_offsets 0 event_names [] }

/-! ## The const member functions -/

/-- The member `signal_names`. -/
def signal_names (s : PapiIOGroup D) : Finset String :=
  (s.m_signal_offsets.map Prod.fst).toFinset

/-- The member `control_names`. -/
def control_names (_s : PapiIOGroup D) : Finset String := ∅

/-- The member `is_valid_signal`. -/
def is_valid_signal (s : PapiIOGroup D) (signal_name : String) : Bool :=
  (map_find s.m_signal_offsets signal_name).isSome

/-- The member `is_valid_control`. -/
def is_valid_control (_s : PapiIOGroup D) (_control_name : String) : Bool := false

/-- The member `signal_domain_type`. -/
def signal_domain_type (K : Host D) (s : PapiIOGroup D) (signal_name : String) : Int :=
  if is_valid_signal s signal_name then K.GEOPM_DOMAIN_CORE else K.GEOPM_DOMAIN_INVALID

/-- The member `control_domain_type`. -/
def control_domain_type (K : Host D) (_s : PapiIOGroup D) (_control_name : String) : Int :=
  K.GEOPM_DOMAIN_INVALID

/-- The member `signal_description`. -/
def signal_description (_s : PapiIOGroup D) (_signal_name : String) : String :=
  "Dummy description. See papi_avail and papi_native_avail"

/-- The member `control_description`: always throws. -/
def control_description (K : Host D) (_s : PapiIOGroup D) (_control_name : String) :
    Except Error String :=
  Except.error (Error.Exception "PapiIOGroup has no controls" K.GEOPM_ERROR_INVALID)

/-- The static member `plugin_name`. -/
def plugin_name : String := "PAPI"

/-! ## The non-const member functions -/

/-- The assignment `m_signals_per_core[domain_idx][offset].m_do_read = true`.
The `int` index `domain_idx` is converted to `size_t`, so a negative one is out
of range like one that is too large. -/
def set_do_read (domain_idx : Int) (offset : Nat) (sigs : List (List signal_s)) :
    Option (List (List signal_s)) :=
  if domain_idx < 0 then none
  else
    match sigs[domain_idx.toNat]? with
    | none => none
    | some row =>
      match row[offset]? with
      | none => none
      | some sg =>
        some (sigs.set domain_idx.toNat (row.set offset { sg with m_do_read := true }))

/-- The inner loop of `push_signal`, `for (size_t i = 0; i < m_signal_offsets.size(); ++i)`,
with `todo` rounds left: every round makes the same assignment. -/
def push_inner (domain_idx : Int) (offset : Nat) :
    Nat → List (List signal_s) → Option (List (List signal_s))
  | 0, sigs => some sigs
  | todo + 1, sigs =>
    match set_do_read domain_idx offset sigs with
    | none => none
    | some sigs1 => push_inner domain_idx offset todo sigs1

/-- The outer loop of `push_signal`, `for (size_t core = 0; core < m_papi_event_sets.size(); ++core)`,
with `todo` rounds left; `inner` is `m_signal_offsets.size()`. -/
def push_outer (domain_idx : Int) (offset inner : Nat) :
    Nat → List (List signal_s) → Option (List (List signal_s))
  | 0, sigs => some sigs
  | todo + 1, sigs =>
    match push_inner domain_idx offset inner sigs with
    | none => none
    | some sigs1 => push_outer domain_idx offset inner todo sigs1

/-- The member `push_signal`. -/
def push_signal (K : Host D) (s : PapiIOGroup D) (signal_name : String)
    (domain_type domain_idx : Int) : Outcome (PapiIOGroup D) Int :=
  match map_find s.m_signal_offsets signal_name with
  | none =>
    Outcome.throws
      (Error.Exception ("PapiIOGroup::push_signal(): " ++ signal_name ++
        "not valid for PapiIOGroup") K.GEOPM_ERROR_INVALID) s
  | some offset =>
    if domain_type ≠ K.GEOPM_DOMAIN_CORE then
      Outcome.throws
        (Error.Exception ("PapiIOGroup::push_signal(): domain_type " ++ toString domain_type ++
          "not valid for PapiIOGroup") K.GEOPM_ERROR_INVALID) s
    else
      match push_outer domain_idx offset s.m_signal_offsets.length
          s.m_papi_event_sets.length s.m_signals_per_core with
      | none => Outcome.undefined
      | some sigs =>
        Outcome.ok (domain_idx * (s.m_signal_offsets.length : Int) + (offset : Int))
          { s with m_signals_per_core := sigs }

/-- The member `push_control`: always throws. -/
def push_control (K : Host D) (s : PapiIOGroup D) (_control_name : String)
    (_domain_type _domain_idx : Int) : Outcome (PapiIOGroup D) Int :=
  Outcome.throws (Error.Exception "PapiIOGroup has no controls" K.GEOPM_ERROR_INVALID) s

/-- What `PAPI_read(event_set, buffer.data())` leaves in the buffer: the library
writes one value per event of the event set, and the buffer has one element
per event. -/
def papi_store (values : Nat → Int) (buffer : List Int) : List Int :=
  (List.range buffer.length).map values

/-- The inner loop of `read_batch`, with `todo` rounds left from position `i`:
`m_batch_values[base + i] = static_cast<double>(row[i])`, where `base` is
`core * m_signal_offsets.size()`. -/
def copy_values (K : Host D) (row : List Int) (base : Nat) :
    Nat → Nat → List D → Option (List D)
  | 0, _, batch => some batch
  | todo + 1, i, batch =>
    match row[i]? with
    | none => none
    | some v =>
      if base + i < batch.length then
        copy_values K row base todo (i + 1) (batch.set (base + i) (K.static_cast_double v))
      else none

/-- The outer loop of `read_batch`, with `todo` cores left from core `core`.
`PAPI_read core` is what the library answers for that core in this batch:
the status and the values it writes. -/
def read_cores (K : Host D) (PAPI_read : Nat → Int × (Nat → Int)) :
    Nat → Nat → PapiIOGroup D → Outcome (PapiIOGroup D) Unit
  | 0, _, s => Outcome.ok () s
  | todo + 1, core, s =>
    match s.m_papi_values_per_core[core]? with
    | none => Outcome.undefined
    | some buffer =>
      if (PAPI_read core).1 ≠ K.PAPI_OK then
        Outcome.throws (die "PAPI_read" (PAPI_read core).1)
          { s with
            m_papi_values_per_core :=
              s.m_papi_values_per_core.set core (papi_store (PAPI_read core).2 buffer) }
      else
        match copy_values K (papi_store (PAPI_read core).2 buffer)
            (core * s.m_signal_offsets.length) s.m_signal_offsets.length 0 s.m_batch_values with
        | none => Outcome.undefined
        | some batch =>
          read_cores K PAPI_read todo (core + 1)
            { s with
              m_papi_values_per_core :=
                s.m_papi_values_per_core.set core (papi_store (PAPI_read core).2 buffer)
              m_batch_values := batch }

/-- The member `read_batch`. -/
def read_batch (K : Host D) (s : PapiIOGroup D) (PAPI_read : Nat → Int × (Nat → Int)) :
    Outcome (PapiIOGroup D) Unit :=
  read_cores K PAPI_read s.m_papi_event_sets.length 0 s

/-- The member `write_batch`. -/
def write_batch (s : PapiIOGroup D) : Outcome (PapiIOGroup D) Unit := Outcome.ok () s

/-- The member `sample`.  The bound `static_cast<int>(m_batch_values.size())` is
the length of the buffer.  In the last branch the index is in range, so the
element exists. -/
def sample (K : Host D) (s : PapiIOGroup D) (batch_idx : Int) : Outcome (PapiIOGroup D) D :=
  if batch_idx < 0 ∨ batch_idx ≥ (s.m_batch_values.length : Int) then
    Outcome.throws
      (Error.Exception ("PapiIOGroup::sample(): batch_idx " ++ toString batch_idx ++
        " not valid for PapiIOGroup") K.GEOPM_ERROR_INVALID) s
  else
    match s.m_batch_values[batch_idx.toNat]? with
    | none => Outcome.undefined
    | some result => Outcome.ok result s

/-- The member `adjust`: always throws. -/
def adjust (K : Host D) (s : PapiIOGroup D) (_batch_idx : Int) (_setting : D) :
    Outcome (PapiIOGroup D) Unit :=
  Outcome.throws (Error.Exception "PapiIOGroup has no controls" K.GEOPM_ERROR_INVALID) s

/-- The member `read_signal`.  `PAPI_read` is what the library answers to the
one read of this call: the status and the values it writes. -/
def read_signal (K : Host D) (s : PapiIOGroup D) (signal_name : String)
    (domain_type domain_idx : Int) (PAPI_read : Int × (Nat → Int)) :
    Outcome (PapiIOGroup D) D :=
  match map_find s.m_signal_offsets signal_name with
  | none =>
    Outcome.throws
      (Error.Exception ("PapiIOGroup::read_signal(): " ++ signal_name ++
        "not valid for PapiIOGroup") K.GEOPM_ERROR_INVALID) s
  | some offset =>
    if domain_type ≠ K.GEOPM_DOMAIN_CORE then
      Outcome.throws
        (Error.Exception ("PapiIOGroup:read_signal(): domain_type " ++ toString domain_type ++
          "not valid for PapiIOGroup") K.GEOPM_ERROR_INVALID) s
    else if domain_idx < 0 then Outcome.undefined
    else
      match s.m_papi_event_sets[domain_idx.toNat]?, s.m_papi_values_per_core[domain_idx.toNat]? with
      | some _, some buffer =>
        if PAPI_read.1 ≠ K.PAPI_OK then
          Outcome.throws (die "PAPI_read" PAPI_read.1)
            { s with
              m_papi_values_per_core :=
                s.m_papi_values_per_core.set domain_idx.toNat (papi_store PAPI_read.2 buffer) }
        else
          match (papi_store PAPI_read.2 buffer)[offset]? with
          | none => Outcome.undefined
          | some v =>
            Outcome.ok (K.static_cast_double v)
              { s with
                m_papi_values_per_core :=
                  s.m_papi_values_per_core.set domain_idx.toNat (papi_store PAPI_read.2 buffer) }
      | _, _ => Outcome.undefined

/-- The member `write_control`: always throws. -/
def write_control (K : Host D) (s : PapiIOGroup D) (_control_name : String)
    (_domain_type _domain_idx : Int) (_setting : D) : Outcome (PapiIOGroup D) Unit :=
  Outcome.throws (Error.Exception "PapiIOGroup has no controls" K.GEOPM_ERROR_INVALID) s

/-- The member `save_control`. -/
def save_control (s : PapiIOGroup D) : Outcome (PapiIOGroup D) Unit := Outcome.ok () s

/-- The member `restore_control`. -/
def restore_control (s : PapiIOGroup D) : Outcome (PapiIOGroup D) Unit := Outcome.ok () s

/-! ## The states an adapter goes through -/

/-- The states of an adapter built with the library `L` and the environment
string `env_str`: the state the constructor leaves, and the state after any
call of a non-const member function that returned or threw. -/
inductive Reachable (K : Host D) (L : PapiLibrary) (env_str : Option String) :
    PapiIOGroup D → Prop where
  | construct {s : PapiIOGroup D} :
      PapiIOGroup.construct K L env_str = Except.ok s → Reachable K L env_str s
  | push_signal {s t : PapiIOGroup D} (signal_name : String) (domain_type domain_idx : Int) :
      Reachable K L env_str s →
      (PapiIOGroup.push_signal K s signal_name domain_type domain_idx).state? = some t →
      Reachable K L env_str t
  | push_control {s t : PapiIOGroup D} (control_name : String) (domain_type domain_idx : Int) :
      Reachable K L env_str s →
      (PapiIOGroup.push_control K s control_name domain_type domain_idx).state? = some t →
      Reachable K L env_str t
  | read_batch {s t : PapiIOGroup D} (PAPI_read : Nat → Int × (Nat → Int)) :
      Reachable K L env_str s →
      (PapiIOGroup.read_batch K s PAPI_read).state? = some t →
      Reachable K L env_str t
  | write_batch {s t : PapiIOGroup D} :
      Reachable K L env_str s →
      (PapiIOGroup.write_batch s).state? = some t →
      Reachable K L env_str t
  | sample {s t : PapiIOGroup D} (batch_idx : Int) :
      Reachable K L env_str s →
      (PapiIOGroup.sample K s batch_idx).state? = some t →
      Reachable K L env_str t
  | adjust {s t : PapiIOGroup D} (batch_idx : Int) (setting : D) :
      Reachable K L env_str s →
      (PapiIOGroup.adjust K s batch_idx setting).state? = some t →
      Reachable K L env_str t
  | read_signal {s t : PapiIOGroup D} (signal_name : String) (domain_type domain_idx : Int)
      (PAPI_read : Int × (Nat → Int)) :
      Reachable K L env_str s →
      (PapiIOGroup.read_signal K s signal_name domain_type domain_idx PAPI_read).state? = some t →
      Reachable K L env_str t
  | write_control {s t : PapiIOGroup D} (control_name : String) (domain_type domain_idx : Int)
      (setting : D) :
      Reachable K L env_str s →
      (PapiIOGroup.write_control K s control_name domain_type domain_idx setting).state? = some t →
      Reachable K L env_str t
  | save_control {s t : PapiIOGroup D} :
      Reachable K L env_str s →
      (PapiIOGroup.save_control s).state? = some t →
      Reachable K L env_str t
  | restore_control {s t : PapiIOGroup D} :
      Reachable K L env_str s →
      (PapiIOGroup.restore_control s).state? = some t →
      Reachable K L env_str t

/-- The sizes the constructor gives the members of an adapter of `n` cores
whose event list is `names`. -/
structure Shape (n : Nat) (names : List String) (s : PapiIOGroup D) : Prop where
  offsets : s.m_signal_offsets = fill_offsets 0 names []
  event_sets : s.m_papi_event_sets.length = n
  signals_length : s.m_signals_per_core.length = n
  signals_rows : ∀ row ∈ s.m_signals_per_core, row.length = names.length
  values_length : s.m_papi_values_per_core.length = n
  values_rows : ∀ row ∈ s.m_papi_values_per_core, row.length = names.length
  batch : s.m_batch_values.length = n * names.length

/-- The calls of the constructor that do not depend on the event list succeed:
the three initialisation calls and, for every core of the machine, the calls
that create, bind, multiplex and start its event set. -/
def setup_succeeds (K : Host D) (L : PapiLibrary) : Prop :=
  L.PAPI_library_init = K.PAPI_VER_CURRENT ∧
  L.PAPI_multiplex_init = K.PAPI_OK ∧
  L.PAPI_set_granularity = K.PAPI_OK ∧
  ∀ i, i < L.sockets * L.cores →
    (L.PAPI_create_eventset i).1 = K.PAPI_OK ∧
    L.PAPI_assign_eventset_component i = K.PAPI_OK ∧
    L.PAPI_set_opt i = K.PAPI_OK ∧
    L.PAPI_set_multiplex i = K.PAPI_OK ∧
    L.PAPI_start i = K.PAPI_OK

/-- The counter library refuses to add an event that is already in the event
set: `PAPI_add_event` then returns `PAPI_ECNFLCT`, not `PAPI_OK`.  A name has
one event code, so on every core of the machine the add of the name at
position `j2` does not return `PAPI_OK` when the same name stands at an
earlier position `j1` of the list.  Nothing is asked of the adds of a list
that repeats no name. -/
def refuses_repeated_event (K : Host D) (L : PapiLibrary) (names : List String) : Prop :=
  ∀ core, core < L.sockets * L.cores →
    ∀ j2, j2 < names.length →
      ∀ j1, j1 < j2 → names[j1]? = names[j2]? → L.PAPI_add_event core j2 ≠ K.PAPI_OK

end PapiIOGroup

/-! ## A concrete host, library and adapters -/

/-- A host for the examples.  A double is written as the integer it was
converted from. -/
def demo_host : Host Int :=
  { PAPI_OK := 0
    PAPI_VER_CURRENT := 7
    PAPI_NULL := -1
    GEOPM_DOMAIN_CORE := 3
    GEOPM_DOMAIN_INVALID := 0
    GEOPM_ERROR_INVALID := -3
    static_cast_double := fun v => v }

/-- A library on a machine of one socket and `n` cores whose calls all succeed;
the handle of the event set of core `i` is `i`. -/
def demo_library (n : Nat) : PapiLibrary :=
  { PAPI_library_init := 7
    PAPI_multiplex_init := 0
    PAPI_set_granularity := 0
    sockets := 1
    cores := n
    PAPI_create_eventset := fun i => (0, (i : Int))
    PAPI_assign_eventset_component := fun _ => 0
    PAPI_set_opt := fun _ => 0
    PAPI_set_multiplex := fun _ => 0
    PAPI_event_name_to_code := fun _ j => (0, (j : Int))
    PAPI_add_event := fun _ _ => 0
    PAPI_start := fun _ => 0 }

/-- The library `demo_library n` asked for the events `names`, with the refusal
of the counter library for an event that is already in the event set: the add
of a name that stands at an earlier position returns `PAPI_ECNFLCT`, here -8. -/
def refusing_library (n : Nat) (names : List String) : PapiLibrary :=
  { demo_library n with
    PAPI_add_event := fun _ j =>
      if (List.range j).any (fun k => names[k]? == names[j]?) then -8 else 0 }

/-- Successful reads: the counter of the event at position `j` on core `core`
stands at `100 * (core + 1) + j`. -/
def demo_reads : Nat → Int × (Nat → Int) :=
  fun core => (0, fun j => 100 * ((core : Int) + 1) + (j : Int))

/-- The adapter of two cores built with `GEOPM_PAPI_EVENTS="cycles instructions"`. -/
def two_core_adapter : PapiIOGroup Int :=
  { m_signal_offsets := [("cycles", 0), ("instructions", 1)]
    m_signals_per_core :=
      [[⟨"PAPI Counter: cycles", false⟩, ⟨"PAPI Counter: instructions", false⟩],
       [⟨"PAPI Counter: cycles", false⟩, ⟨"PAPI Counter: instructions", false⟩]]
    m_papi_values_per_core := [[0, 0], [0, 0]]
    m_batch_values := [0, 0, 0, 0]
    m_papi_event_sets := [0, 1] }

/-- The adapter of two cores built with `GEOPM_PAPI_EVENTS` unset. -/
def no_event_adapter : PapiIOGroup Int :=
  { m_signal_offsets := []
    m_signals_per_core := [[], []]
    m_papi_values_per_core := [[], []]
    m_batch_values := []
    m_papi_event_sets := [0, 1] }

/-- The adapter of two cores that `demo_library 2`, which accepts the second
add of `"a"`, builds with `GEOPM_PAPI_EVENTS="a a b"`. -/
def repeated_name_adapter : PapiIOGroup Int :=
  { m_signal_offsets := [("a", 0), ("b", 2)]
    m_signals_per_core :=
      [[⟨"PAPI Counter: a", false⟩, ⟨"PAPI Counter: a", false⟩, ⟨"PAPI Counter: b", false⟩],
       [⟨"PAPI Counter: a", false⟩, ⟨"PAPI Counter: a", false⟩, ⟨"PAPI Counter: b", false⟩]]
    m_papi_values_per_core := [[0, 0, 0], [0, 0, 0]]
    m_batch_values := [0, 0, 0, 0, 0, 0]
    m_papi_event_sets := [0, 1] }

/-- The adapter `repeated_name_adapter` after `push_signal("b", CORE, 0)`. -/
def repeated_name_pushed : PapiIOGroup Int :=
  { repeated_name_adapter with
    m_signals_per_core :=
      [[⟨"PAPI Counter: a", false⟩, ⟨"PAPI Counter: a", false⟩, ⟨"PAPI Counter: b", true⟩],
       [⟨"PAPI Counter: a", false⟩, ⟨"PAPI Counter: a", false⟩, ⟨"PAPI Counter: b", false⟩]] }

/-- The adapter `repeated_name_pushed` after a `read_batch` that read `demo_reads`. -/
def repeated_name_read : PapiIOGroup Int :=
  { repeated_name_pushed with
    m_papi_values_per_core := [[100, 101, 102], [200, 201, 202]]
    m_batch_values := [100, 101, 200, 201, 0, 0] }

/-! ## The catalog `m_signal_offsets` -/

theorem map_find_append (m : List (String × Nat)) (k : String) (v : Nat) (x : String) :
    map_find (m ++ [(k, v)]) x =
      (map_find m x).orElse (fun _ => if k = x then some v else none) := by
  induction m with
  | nil => simp [map_find]
  | cons p rest ih =>
    obtain ⟨a, b⟩ := p
    by_cases h : a = x
    · simp [map_find, h]
    · simp [map_find, h, ih]

theorem map_find_emplace (m : List (String × Nat)) (k : String) (v : Nat) (x : String) :
    map_find (map_emplace m k v) x =
      (map_find m x).orElse (fun _ => if k = x then some v else none) := by
  unfold map_emplace
  cases hk : map_find m k with
  | none => simp [map_find_append]
  | some w =>
    by_cases h : k = x
    · subst h; simp [hk]
    · cases hx : map_find m x <;> simp [h]

theorem map_find_isSome_iff (m : List (String × Nat)) (x : String) :
    (map_find m x).isSome = true ↔ x ∈ m.map Prod.fst := by
  induction m with
  | nil => simp [map_find]
  | cons p rest ih =>
    obtain ⟨a, b⟩ := p
    by_cases h : a = x
    · simp [map_find, h]
    · have h2 : ¬ x = a := fun e => h e.symm
      simp [map_find, h, h2, ih]

theorem map_emplace_keys (m : List (String × Nat)) (k : String) (v : Nat) :
    (map_emplace m k v).map Prod.fst =
      if k ∈ m.map Prod.fst then m.map Prod.fst else m.map Prod.fst ++ [k] := by
  unfold map_emplace
  cases hk : map_find m k with
  | none =>
    have : ¬ k ∈ m.map Prod.fst := by
      rw [← map_find_isSome_iff, hk]; simp
    simp only [if_neg this]; simp
  | some w =>
    have : k ∈ m.map Prod.fst := by
      rw [← map_find_isSome_iff, hk]; simp
    simp only [if_pos this]

/-! ## The words of the environment string -/

theorem extract_words_nil (fuel : Nat) : extract_words fuel [] = [] := by
  cases fuel <;> simp [extract_words]

theorem tokens_dropWhile (cs : List Char) :
    ((cs.dropWhile isspace).splitOnP isspace).filter (fun w => !w.isEmpty) =
      (cs.splitOnP isspace).filter (fun w => !w.isEmpty) := by
  induction cs with
  | nil => rfl
  | cons c cs ih =>
    by_cases h : isspace c = true
    · rw [List.dropWhile_cons_of_pos h, ih, List.splitOnP_cons, if_pos h]
      simp
    · rw [List.dropWhile_cons_of_neg h]

theorem tokens_word (rest : List Char)
    (hw : rest.takeWhile (fun c => !isspace c) ≠ []) :
    (rest.splitOnP isspace).filter (fun w => !w.isEmpty) =
      rest.takeWhile (fun c => !isspace c) ::
        ((rest.dropWhile (fun c => !isspace c)).splitOnP isspace).filter
          (fun w => !w.isEmpty) := by
  have hsplit := List.takeWhile_append_dropWhile (fun c => !isspace c) rest
  have hword : ∀ x ∈ rest.takeWhile (fun c => !isspace c), ¬ isspace x = true := by
    intro x hx
    have := List.mem_takeWhile_imp hx
    simpa using this
  cases hd : rest.dropWhile (fun c => !isspace c) with
  | nil =>
    rw [hd, List.append_nil] at hsplit
    rw [hsplit] at hword hw ⊢
    rw [List.splitOnP_eq_single isspace _ hword]
    cases rest with
    | nil => exact absurd rfl hw
    | cons a l => simp [List.splitOnP_nil]
  | cons sp as =>
    have hsp : isspace sp = true := by
      have := List.head_dropWhile_not (fun c => !isspace c) rest (by rw [hd]; simp)
      simp only [hd, List.head_cons] at this
      simpa using this
    rw [hd] at hsplit
    conv_lhs => rw [← hsplit]
    rw [List.splitOnP_first isspace _ hword sp hsp as]
    rw [List.splitOnP_cons, if_pos hsp]
    cases hw' : rest.takeWhile (fun c => !isspace c) with
    | nil => exact absurd hw' hw
    | cons a l => simp

theorem dropWhile_takeWhile_nil (cs : List Char)
    (h : (cs.dropWhile isspace).takeWhile (fun c => !isspace c) = []) :
    cs.dropWhile isspace = [] := by
  cases hd : cs.dropWhile isspace with
  | nil => rfl
  | cons a l =>
    exfalso
    have h1 := List.head_dropWhile_not isspace cs (by rw [hd]; simp)
    simp only [hd, List.head_cons] at h1
    rw [hd] at h
    simp [List.takeWhile_cons, h1] at h

theorem extract_words_eq (fuel : Nat) (cs : List Char) (h : cs.length < fuel) :
    extract_words fuel cs =
      ((cs.splitOnP isspace).filter (fun w => !w.isEmpty)).map String.mk := by
  induction fuel generalizing cs with
  | zero => omega
  | succ fuel ih =>
    rw [extract_words]
    split
    · rename_i hw
      have hr := dropWhile_takeWhile_nil cs hw
      rw [← tokens_dropWhile, hr]
      simp [List.splitOnP_nil]
    · rename_i hw
      rw [← tokens_dropWhile cs, tokens_word _ hw]
      simp only [List.map_cons]
      congr 1
      apply ih
      have h1 : ((cs.dropWhile isspace).dropWhile (fun c => !isspace c)).length
          < (cs.dropWhile isspace).length := by
        have := List.takeWhile_append_dropWhile (fun c => !isspace c) (cs.dropWhile isspace)
        have hl := congrArg List.length this
        rw [List.length_append] at hl
        have : 0 < ((cs.dropWhile isspace).takeWhile (fun c => !isspace c)).length :=
          List.length_pos.mpr hw
        omega
      have h2 : (cs.dropWhile isspace).length ≤ cs.length :=
        (List.dropWhile_sublist isspace).length_le
      omega

/-- The words `operator>>` extracts are the whitespace-separated tokens. -/
theorem istream_words_eq_tokens (str : String) :
    istream_words str = whitespace_separated_tokens str :=
  extract_words_eq _ _ (Nat.lt_succ_self _)

theorem istream_words_whitespace (str : String) (h : ∀ c ∈ str.data, isspace c = true) :
    istream_words str = [] := by
  unfold istream_words
  rw [extract_words]
  have : str.data.dropWhile isspace = [] := List.dropWhile_eq_nil_iff.mpr h
  rw [this]
  simp

namespace PapiIOGroup

variable {D : Type}

theorem map_find_fill_offsets (names : List String) (i : Nat) (m : List (String × Nat))
    (x : String) :
    map_find (fill_offsets i names m) x =
      (map_find m x).orElse
        (fun _ => if x ∈ names then some (i + names.indexOf x) else none) := by
  induction names generalizing i m with
  | nil => cases h : map_find m x <;> simp [fill_offsets, h]
  | cons n rest ih =>
    rw [fill_offsets, ih, map_find_emplace]
    cases hx : map_find m x with
    | some w => simp
    | none =>
      by_cases hn : n = x
      · subst hn; simp
      · have hn2 : ¬ x = n := fun h => hn h.symm
        simp [hn, hn2, List.indexOf_cons_ne _ hn]
        split <;> simp; omega

theorem fill_offsets_keys_toFinset (names : List String) (i : Nat) (m : List (String × Nat)) :
    ((fill_offsets i names m).map Prod.fst).toFinset =
      (m.map Prod.fst).toFinset ∪ names.toFinset := by
  induction names generalizing i m with
  | nil => simp [fill_offsets]
  | cons n rest ih =>
    rw [fill_offsets, ih, map_emplace_keys]
    ext x
    split <;> rename_i h
    · simp only [Finset.mem_union, List.mem_toFinset, List.mem_cons]
      constructor
      · rintro (h1 | h1)
        · exact Or.inl h1
        · exact Or.inr (Or.inr h1)
      · rintro (h1 | h1 | h1)
        · exact Or.inl h1
        · subst h1; exact Or.inl h
        · exact Or.inr h1
    · simp only [Finset.mem_union, List.mem_toFinset, List.mem_cons, List.mem_append,
        List.mem_singleton]
      tauto

theorem fill_offsets_keys_nodup (names : List String) (i : Nat) (m : List (String × Nat))
    (hm : (m.map Prod.fst).Nodup) : ((fill_offsets i names m).map Prod.fst).Nodup := by
  induction names generalizing i m with
  | nil => simpa [fill_offsets] using hm
  | cons n rest ih =>
    rw [fill_offsets]
    apply ih
    rw [map_emplace_keys]
    split <;> rename_i h
    · exact hm
    · rw [List.nodup_append]
      refine ⟨hm, List.nodup_singleton _, ?_⟩
      intro a ha hb
      simp at hb
      subst hb
      exact h ha

/-- The catalog holds one entry per distinct requested name. -/
theorem fill_offsets_length (names : List String) :
    (fill_offsets 0 names []).length = names.toFinset.card := by
  have h1 := fill_offsets_keys_nodup names 0 [] (by simp)
  have h2 := fill_offsets_keys_toFinset names 0 []
  have h3 := List.toFinset_card_of_nodup h1
  rw [h2] at h3
  simpa using h3.symm

theorem fill_offsets_length_le (names : List String) :
    (fill_offsets 0 names []).length ≤ names.length := by
  rw [fill_offsets_length]
  exact List.toFinset_card_le names

theorem fill_offsets_length_nodup (names : List String) (h : names.Nodup) :
    (fill_offsets 0 names []).length = names.length := by
  rw [fill_offsets_length]
  exact List.toFinset_card_of_nodup h

theorem add_events_length (K : Host D) (L : PapiLibrary) (core : Nat) (names : List String)
    (j : Nat) (sigs out : List signal_s)
    (h : add_events K L core j names sigs = Except.ok out) :
    out.length = sigs.length + names.length := by
  induction names generalizing j sigs with
  | nil =>
    simp only [add_events, Except.ok.injEq] at h
    subst h; simp
  | cons n rest ih =>
    rw [add_events] at h
    split at h
    · cases h
    · split at h
      · cases h
      · have := ih _ _ h
        simp at this
        simp; omega

/-! ## The constructor -/

theorem setup_core_fields (K : Host D) (L : PapiLibrary) (names : List String) (i : Nat)
    (s t : PapiIOGroup D) (h : setup_core K L names i s = Except.ok t) :
    t.m_signal_offsets = s.m_signal_offsets ∧ t.m_batch_values = s.m_batch_values ∧
    t.m_papi_event_sets = s.m_papi_event_sets.set i (L.PAPI_create_eventset i).2 ∧
    (∃ sigs, sigs.length = names.length ∧ t.m_signals_per_core = s.m_signals_per_core ++ [sigs]) ∧
    t.m_papi_values_per_core = s.m_papi_values_per_core ++ [List.replicate names.length 0] := by
  unfold setup_core at h
  split at h
  · cases h
  split at h
  · cases h
  split at h
  · cases h
  split at h
  · cases h
  split at h
  · cases h
  · rename_i sigs hs
    split at h
    · cases h
    · simp only [Except.ok.injEq] at h
      subst h
      refine ⟨rfl, rfl, rfl, ⟨sigs, ?_, rfl⟩, rfl⟩
      simpa using add_events_length K L i names 0 [] sigs hs

theorem setup_cores_fields (K : Host D) (L : PapiLibrary) (names : List String) (todo i : Nat)
    (s t : PapiIOGroup D) (h : setup_cores K L names todo i s = Except.ok t) :
    t.m_signal_offsets = s.m_signal_offsets ∧ t.m_batch_values = s.m_batch_values ∧
    t.m_papi_event_sets.length = s.m_papi_event_sets.length ∧
    t.m_signals_per_core.length = s.m_signals_per_core.length + todo ∧
    (∀ row ∈ t.m_signals_per_core, row ∈ s.m_signals_per_core ∨ row.length = names.length) ∧
    t.m_papi_values_per_core.length = s.m_papi_values_per_core.length + todo ∧
    (∀ row ∈ t.m_papi_values_per_core,
      row ∈ s.m_papi_values_per_core ∨ row.length = names.length) := by
  induction todo generalizing i s with
  | zero =>
    simp only [setup_cores, Except.ok.injEq] at h
    subst h
    simp +contextual
  | succ todo ih =>
    rw [setup_cores] at h
    split at h
    · cases h
    · rename_i s1 h1
      obtain ⟨a1, a2, a3, ⟨sigs, a4, a5⟩, a6⟩ := setup_core_fields K L names i s s1 h1
      obtain ⟨b1, b2, b3, b4, b5, b6, b7⟩ := ih (i + 1) s1 h
      refine ⟨b1.trans a1, b2.trans a2, ?_, ?_, ?_, ?_, ?_⟩
      · rw [b3, a3]; simp
      · rw [b4, a5]; simp; omega
      · intro row hrow
        rcases b5 row hrow with h' | h'
        · rw [a5] at h'
          simp at h'
          rcases h' with h' | h'
          · exact Or.inl h'
          · right; rw [h']; exact a4
        · exact Or.inr h'
      · rw [b6, a6]; simp; omega
      · intro row hrow
        rcases b7 row hrow with h' | h'
        · rw [a6] at h'
          simp at h'
          rcases h' with h' | h'
          · exact Or.inl h'
          · right; rw [h']; simp
        · exact Or.inr h'

/-- A constructed adapter has the buffer of zeros and the sizes of `Shape`. -/
theorem construct_fields (K : Host D) (L : PapiLibrary) (env_str : Option String)
    (s : PapiIOGroup D) (h : construct K L env_str = Except.ok s) :
    Shape (L.sockets * L.cores) (event_names env_str) s ∧
    s.m_batch_values =
      List.replicate (L.sockets * L.cores * (event_names env_str).length)
        (K.static_cast_double 0) := by
  unfold construct at h
  simp only at h
  split at h
  · cases h
  split at h
  · cases h
  split at h
  · cases h
  split at h
  · cases h
  · rename_i s1 h1
    simp only [Except.ok.injEq] at h
    subst h
    obtain ⟨b1, b2, b3, b4, b5, b6, b7⟩ := setup_cores_fields K L _ _ _ _ _ h1
    refine ⟨⟨rfl, ?_, ?_, ?_, ?_, ?_, ?_⟩, rfl⟩
    · simpa using b3
    · simpa using b4
    · intro row hrow
      rcases b5 row hrow with h' | h'
      · simp at h'
      · exact h'
    · simpa using b6
    · intro row hrow
      rcases b7 row hrow with h' | h'
      · simp at h'
      · exact h'
    · simp

/-! ## What the member functions change -/

theorem set_do_read_lengths (domain_idx : Int) (offset : Nat) (sigs out : List (List signal_s))
    (h : set_do_read domain_idx offset sigs = some out) :
    out.map List.length = sigs.map List.length := by
  unfold set_do_read at h
  split at h
  · cases h
  split at h
  · cases h
  · rename_i row hrow
    split at h
    · cases h
    · simp only [Option.some.injEq] at h
      subst h
      rw [List.map_set]
      apply List.ext_getElem?
      intro k
      rw [List.getElem?_set]
      split
      · rename_i hk
        subst hk
        simp only [List.length_map, List.length_set, List.getElem?_map, hrow, Option.map_some']
        have := (List.getElem?_eq_some_iff.mp hrow).1
        simp [this]
      · rfl

theorem push_inner_lengths (domain_idx : Int) (offset todo : Nat) (sigs out : List (List signal_s))
    (h : push_inner domain_idx offset todo sigs = some out) :
    out.map List.length = sigs.map List.length := by
  induction todo generalizing sigs with
  | zero => simp only [push_inner, Option.some.injEq] at h; subst h; rfl
  | succ todo ih =>
    rw [push_inner] at h
    split at h
    · cases h
    · rename_i s1 h1
      rw [ih _ h, set_do_read_lengths _ _ _ _ h1]

theorem push_outer_lengths (domain_idx : Int) (offset inner todo : Nat)
    (sigs out : List (List signal_s))
    (h : push_outer domain_idx offset inner todo sigs = some out) :
    out.map List.length = sigs.map List.length := by
  induction todo generalizing sigs with
  | zero => simp only [push_outer, Option.some.injEq] at h; subst h; rfl
  | succ todo ih =>
    rw [push_outer] at h
    split at h
    · cases h
    · rename_i s1 h1
      rw [ih _ h, push_inner_lengths _ _ _ _ _ h1]

/-- What a call of `push_signal` can change: the marks only, not their layout. -/
theorem push_signal_state (K : Host D) (s t : PapiIOGroup D) (signal_name : String)
    (domain_type domain_idx : Int)
    (h : (push_signal K s signal_name domain_type domain_idx).state? = some t) :
    t.m_signal_offsets = s.m_signal_offsets ∧
    t.m_papi_values_per_core = s.m_papi_values_per_core ∧
    t.m_batch_values = s.m_batch_values ∧
    t.m_papi_event_sets = s.m_papi_event_sets ∧
    t.m_signals_per_core.map List.length = s.m_signals_per_core.map List.length := by
  unfold push_signal at h
  split at h
  · simp only [Outcome.state?, Option.some.injEq] at h
    subst h; simp
  · split at h
    · simp only [Outcome.state?, Option.some.injEq] at h
      subst h; simp
    · split at h
      · simp [Outcome.state?] at h
      · rename_i sigs hs
        simp only [Outcome.state?, Option.some.injEq] at h
        subst h
        exact ⟨rfl, rfl, rfl, rfl, push_outer_lengths _ _ _ _ _ _ hs⟩

theorem rows_of_lengths {α : Type} (a b : List (List α)) (E : Nat)
    (h : b.map List.length = a.map List.length) (ha : ∀ row ∈ a, row.length = E) :
    b.length = a.length ∧ ∀ row ∈ b, row.length = E := by
  constructor
  · simpa using congrArg List.length h
  · intro row hrow
    have : row.length ∈ b.map List.length := List.mem_map_of_mem _ hrow
    rw [h] at this
    obtain ⟨r, hr, hl⟩ := List.mem_map.mp this
    rw [← hl]; exact ha r hr

theorem push_signal_shape (K : Host D) (n : Nat) (names : List String) (s t : PapiIOGroup D)
    (signal_name : String) (domain_type domain_idx : Int) (hs : Shape n names s)
    (h : (push_signal K s signal_name domain_type domain_idx).state? = some t) :
    Shape n names t := by
  obtain ⟨a1, a2, a3, a4, a5⟩ := push_signal_state K s t signal_name domain_type domain_idx h
  obtain ⟨c1, c2⟩ := rows_of_lengths _ _ _ a5 hs.signals_rows
  exact ⟨a1.trans hs.offsets, by rw [a4]; exact hs.event_sets, c1.trans hs.signals_length, c2,
    by rw [a2]; exact hs.values_length, by rw [a2]; exact hs.values_rows,
    by rw [a3]; exact hs.batch⟩

theorem papi_store_length (values : Nat → Int) (buffer : List Int) :
    (papi_store values buffer).length = buffer.length := by
  simp [papi_store]

theorem papi_store_getElem? (values : Nat → Int) (buffer : List Int) (j : Nat)
    (h : j < buffer.length) : (papi_store values buffer)[j]? = some (values j) := by
  simp [papi_store, List.getElem?_range h]

theorem set_store_lengths (rows : List (List Int)) (core : Nat) (buffer : List Int)
    (values : Nat → Int) (h : rows[core]? = some buffer) :
    (rows.set core (papi_store values buffer)).map List.length = rows.map List.length := by
  rw [List.map_set]
  apply List.ext_getElem?
  intro k
  rw [List.getElem?_set]
  split
  · rename_i hk
    subst hk
    obtain ⟨hlt, heq⟩ := List.getElem?_eq_some_iff.mp h
    simp [hlt, papi_store_length, heq]
  · rfl

theorem copy_values_length (K : Host D) (row : List Int) (base todo i : Nat) (batch out : List D)
    (h : copy_values K row base todo i batch = some out) : out.length = batch.length := by
  induction todo generalizing i batch with
  | zero => simp only [copy_values, Option.some.injEq] at h; subst h; rfl
  | succ todo ih =>
    rw [copy_values] at h
    split at h
    · cases h
    · split at h
      · rw [ih _ _ h]; simp
      · cases h

theorem read_cores_state (K : Host D) (PAPI_read : Nat → Int × (Nat → Int)) (todo core : Nat)
    (s t : PapiIOGroup D) (h : (read_cores K PAPI_read todo core s).state? = some t) :
    t.m_signal_offsets = s.m_signal_offsets ∧
    t.m_signals_per_core = s.m_signals_per_core ∧
    t.m_papi_event_sets = s.m_papi_event_sets ∧
    t.m_batch_values.length = s.m_batch_values.length ∧
    t.m_papi_values_per_core.map List.length = s.m_papi_values_per_core.map List.length := by
  induction todo generalizing core s with
  | zero =>
    simp only [read_cores, Outcome.state?, Option.some.injEq] at h
    subst h; simp
  | succ todo ih =>
    rw [read_cores] at h
    split at h
    · simp [Outcome.state?] at h
    · rename_i buffer hb
      split at h
      · simp only [Outcome.state?, Option.some.injEq] at h
        subst h
        exact ⟨rfl, rfl, rfl, rfl, set_store_lengths _ _ _ _ hb⟩
      · split at h
        · simp [Outcome.state?] at h
        · rename_i batch hc
          obtain ⟨a1, a2, a3, a4, a5⟩ := ih _ _ h
          refine ⟨a1, a2, a3, ?_, ?_⟩
          · rw [a4]; exact copy_values_length _ _ _ _ _ _ _ hc
          · rw [a5]; exact set_store_lengths _ _ _ _ hb

theorem read_batch_shape (K : Host D) (n : Nat) (names : List String) (s t : PapiIOGroup D)
    (PAPI_read : Nat → Int × (Nat → Int)) (hs : Shape n names s)
    (h : (read_batch K s PAPI_read).state? = some t) : Shape n names t := by
  obtain ⟨a1, a2, a3, a4, a5⟩ := read_cores_state K PAPI_read _ _ s t h
  obtain ⟨c1, c2⟩ := rows_of_lengths _ _ _ a5 hs.values_rows
  exact ⟨a1.trans hs.offsets, by rw [a3]; exact hs.event_sets,
    by rw [a2]; exact hs.signals_length, by rw [a2]; exact hs.signals_rows,
    c1.trans hs.values_length, c2, a4.trans hs.batch⟩

/-- What a call of `read_signal` can change: the values of one per-core buffer. -/
theorem read_signal_state (K : Host D) (s t : PapiIOGroup D) (signal_name : String)
    (domain_type domain_idx : Int) (PAPI_read : Int × (Nat → Int))
    (h : (read_signal K s signal_name domain_type domain_idx PAPI_read).state? = some t) :
    t.m_signal_offsets = s.m_signal_offsets ∧
    t.m_signals_per_core = s.m_signals_per_core ∧
    t.m_batch_values = s.m_batch_values ∧
    t.m_papi_event_sets = s.m_papi_event_sets ∧
    t.m_papi_values_per_core.map List.length = s.m_papi_values_per_core.map List.length := by
  unfold read_signal at h
  split at h
  · simp only [Outcome.state?, Option.some.injEq] at h
    subst h; simp
  · split at h
    · simp only [Outcome.state?, Option.some.injEq] at h
      subst h; simp
    · split at h
      · simp [Outcome.state?] at h
      · split at h
        · rename_i buffer _ hb
          split at h
          · simp only [Outcome.state?, Option.some.injEq] at h
            subst h
            exact ⟨rfl, rfl, rfl, rfl, set_store_lengths _ _ _ _ hb⟩
          · split at h
            · simp [Outcome.state?] at h
            · simp only [Outcome.state?, Option.some.injEq] at h
              subst h
              exact ⟨rfl, rfl, rfl, rfl, set_store_lengths _ _ _ _ hb⟩
        · simp [Outcome.state?] at h

theorem read_signal_shape (K : Host D) (n : Nat) (names : List String) (s t : PapiIOGroup D)
    (signal_name : String) (domain_type domain_idx : Int) (PAPI_read : Int × (Nat → Int))
    (hs : Shape n names s)
    (h : (read_signal K s signal_name domain_type domain_idx PAPI_read).state? = some t) :
    Shape n names t := by
  obtain ⟨a1, a2, a3, a4, a5⟩ := read_signal_state K s t _ _ _ _ h
  obtain ⟨c1, c2⟩ := rows_of_lengths _ _ _ a5 hs.values_rows
  exact ⟨a1.trans hs.offsets, by rw [a4]; exact hs.event_sets,
    by rw [a2]; exact hs.signals_length, by rw [a2]; exact hs.signals_rows,
    c1.trans hs.values_length, c2, by rw [a3]; exact hs.batch⟩

/-- A call of `sample` leaves the whole object as it is. -/
theorem sample_state (K : Host D) (s t : PapiIOGroup D) (batch_idx : Int)
    (h : (sample K s batch_idx).state? = some t) : t = s := by
  unfold sample at h
  split at h
  · simp only [Outcome.state?, Option.some.injEq] at h; exact h.symm
  · split at h
    · simp [Outcome.state?] at h
    · simp only [Outcome.state?, Option.some.injEq] at h; exact h.symm

/-- Every state of an adapter has the sizes its constructor chose. -/
theorem Reachable.shape {K : Host D} {L : PapiLibrary} {env_str : Option String}
    {s : PapiIOGroup D} (h : Reachable K L env_str s) :
    Shape (L.sockets * L.cores) (event_names env_str) s := by
  induction h with
  | construct hc => exact (construct_fields K L env_str _ hc).1
  | push_signal name dt di _ hstep ih => exact push_signal_shape K _ _ _ _ name dt di ih hstep
  | push_control _ _ _ _ hstep ih =>
    simp only [PapiIOGroup.push_control, Outcome.state?, Option.some.injEq] at hstep
    exact hstep ▸ ih
  | read_batch rd _ hstep ih => exact read_batch_shape K _ _ _ _ rd ih hstep
  | write_batch _ hstep ih =>
    simp only [PapiIOGroup.write_batch, Outcome.state?, Option.some.injEq] at hstep
    exact hstep ▸ ih
  | sample idx _ hstep ih => exact (sample_state K _ _ idx hstep) ▸ ih
  | adjust _ _ _ hstep ih =>
    simp only [PapiIOGroup.adjust, Outcome.state?, Option.some.injEq] at hstep
    exact hstep ▸ ih
  | read_signal name dt di rd _ hstep ih =>
    exact read_signal_shape K _ _ _ _ name dt di rd ih hstep
  | write_control _ _ _ _ _ hstep ih =>
    simp only [PapiIOGroup.write_control, Outcome.state?, Option.some.injEq] at hstep
    exact hstep ▸ ih
  | save_control _ hstep ih =>
    simp only [PapiIOGroup.save_control, Outcome.state?, Option.some.injEq] at hstep
    exact hstep ▸ ih
  | restore_control _ hstep ih =>
    simp only [PapiIOGroup.restore_control, Outcome.state?, Option.some.injEq] at hstep
    exact hstep ▸ ih

/-! ## What the member functions return -/

theorem map_find_catalog (names : List String) (x : String) :
    map_find (fill_offsets 0 names []) x =
      if x ∈ names then some (names.indexOf x) else none := by
  rw [map_find_fill_offsets]
  simp [map_find]

theorem is_valid_signal_iff (n : Nat) (names : List String) (s : PapiIOGroup D)
    (hs : Shape n names s) (x : String) : is_valid_signal s x = true ↔ x ∈ names := by
  unfold is_valid_signal
  rw [hs.offsets, map_find_catalog]
  split <;> simp [*]

theorem set_do_read_defined (domain_idx : Int) (offset : Nat) (sigs : List (List signal_s))
    (len : Nat) (h0 : 0 ≤ domain_idx)
    (h1 : (sigs.map List.length)[domain_idx.toNat]? = some len) (h2 : offset < len) :
    ∃ out, set_do_read domain_idx offset sigs = some out := by
  unfold set_do_read
  rw [if_neg (by omega)]
  rw [List.getElem?_map] at h1
  cases hrow : sigs[domain_idx.toNat]? with
  | none => rw [hrow] at h1; simp at h1
  | some row =>
    rw [hrow] at h1
    simp only [Option.map_some', Option.some.injEq] at h1
    have hlt : offset < row.length := by omega
    simp only
    rw [List.getElem?_eq_getElem hlt]
    exact ⟨_, rfl⟩

theorem push_inner_defined (domain_idx : Int) (offset todo : Nat) (sigs : List (List signal_s))
    (len : Nat) (h0 : 0 ≤ domain_idx)
    (h1 : (sigs.map List.length)[domain_idx.toNat]? = some len) (h2 : offset < len) :
    ∃ out, push_inner domain_idx offset todo sigs = some out := by
  induction todo generalizing sigs with
  | zero => exact ⟨_, rfl⟩
  | succ todo ih =>
    obtain ⟨s1, hs1⟩ := set_do_read_defined domain_idx offset sigs len h0 h1 h2
    rw [push_inner, hs1]
    apply ih
    rw [set_do_read_lengths _ _ _ _ hs1]
    exact h1

theorem push_outer_defined (domain_idx : Int) (offset inner todo : Nat)
    (sigs : List (List signal_s)) (len : Nat) (h0 : 0 ≤ domain_idx)
    (h1 : (sigs.map List.length)[domain_idx.toNat]? = some len) (h2 : offset < len) :
    ∃ out, push_outer domain_idx offset inner todo sigs = some out := by
  induction todo generalizing sigs with
  | zero => exact ⟨_, rfl⟩
  | succ todo ih =>
    obtain ⟨s1, hs1⟩ := push_inner_defined domain_idx offset inner sigs len h0 h1 h2
    rw [push_outer, hs1]
    apply ih
    rw [push_inner_lengths _ _ _ _ _ hs1]
    exact h1

theorem shape_signals_row (n : Nat) (names : List String) (s : PapiIOGroup D)
    (hs : Shape n names s) (i : Nat) (hi : i < n) :
    (s.m_signals_per_core.map List.length)[i]? = some names.length := by
  have hlt : i < s.m_signals_per_core.length := by rw [hs.signals_length]; exact hi
  rw [List.getElem?_map, List.getElem?_eq_getElem hlt]
  simp only [Option.map_some', Option.some.injEq]
  exact hs.signals_rows _ (List.getElem_mem _)

theorem shape_values_row (n : Nat) (names : List String) (s : PapiIOGroup D)
    (hs : Shape n names s) (i : Nat) (hi : i < n) :
    ∃ buffer, s.m_papi_values_per_core[i]? = some buffer ∧ buffer.length = names.length := by
  have hlt : i < s.m_papi_values_per_core.length := by rw [hs.values_length]; exact hi
  exact ⟨_, List.getElem?_eq_getElem hlt, hs.values_rows _ (List.getElem_mem _)⟩

/-- What `push_signal` returns for a requested name on a core of the machine:
the core index times the size of the catalog, plus the first position of the
name in the event list. -/
theorem push_signal_value (K : Host D) (n : Nat) (names : List String) (s : PapiIOGroup D)
    (hs : Shape n names s) (e : String) (he : e ∈ names) (i : Nat) (hi : i < n) :
    ∃ t, push_signal K s e K.GEOPM_DOMAIN_CORE (i : Int) =
      Outcome.ok ((i : Int) * (names.toFinset.card : Int) + (names.indexOf e : Int)) t := by
  unfold push_signal
  rw [hs.offsets, map_find_catalog, if_pos he]
  simp only [ne_eq, not_true_eq_false, if_false]
  have hoff : names.indexOf e < names.length := List.indexOf_lt_length.mpr he
  obtain ⟨sigs, hsigs⟩ := push_outer_defined (i : Int) (names.indexOf e)
    (fill_offsets 0 names []).length s.m_papi_event_sets.length s.m_signals_per_core
    names.length (by omega) (by simpa using shape_signals_row n names s hs i hi) hoff
  rw [hsigs, fill_offsets_length]
  exact ⟨_, rfl⟩

theorem sample_out_of_range (K : Host D) (s : PapiIOGroup D) (batch_idx : Int)
    (h : batch_idx < 0 ∨ batch_idx ≥ (s.m_batch_values.length : Int)) :
    sample K s batch_idx =
      Outcome.throws
        (Error.Exception ("PapiIOGroup::sample(): batch_idx " ++ toString batch_idx ++
          " not valid for PapiIOGroup") K.GEOPM_ERROR_INVALID) s := by
  unfold sample
  rw [if_pos h]

theorem sample_in_range (K : Host D) (s : PapiIOGroup D) (batch_idx : Int)
    (h0 : 0 ≤ batch_idx) (h1 : batch_idx < (s.m_batch_values.length : Int)) :
    ∃ v, s.m_batch_values[batch_idx.toNat]? = some v ∧
      sample K s batch_idx = Outcome.ok v s := by
  unfold sample
  rw [if_neg (by omega)]
  have hlt : batch_idx.toNat < s.m_batch_values.length := by omega
  rw [List.getElem?_eq_getElem hlt]
  exact ⟨_, rfl, rfl⟩

/-- The result of `sample` depends on the sample buffer only. -/
theorem sample_congr (K : Host D) (s t : PapiIOGroup D) (k : Int)
    (h : t.m_batch_values = s.m_batch_values) :
    (sample K t k).value? = (sample K s k).value? ∧
    (sample K t k).error? = (sample K s k).error? := by
  unfold sample
  rw [h]
  split
  · simp [Outcome.value?, Outcome.error?]
  · split <;> simp [Outcome.value?, Outcome.error?]

/-- What `read_signal` returns for a requested name on a core of the machine. -/
theorem read_signal_value (K : Host D) (n : Nat) (names : List String) (s : PapiIOGroup D)
    (hs : Shape n names s) (e : String) (he : e ∈ names) (i : Nat) (hi : i < n)
    (PAPI_read : Int × (Nat → Int)) :
    ∃ t, t.m_batch_values = s.m_batch_values ∧
      read_signal K s e K.GEOPM_DOMAIN_CORE (i : Int) PAPI_read =
        if PAPI_read.1 ≠ K.PAPI_OK then Outcome.throws (die "PAPI_read" PAPI_read.1) t
        else Outcome.ok (K.static_cast_double (PAPI_read.2 (names.indexOf e))) t := by
  have hfind : map_find s.m_signal_offsets e = some (names.indexOf e) := by
    rw [hs.offsets, map_find_catalog, if_pos he]
  unfold read_signal
  rw [hfind]
  simp only [ne_eq, not_true_eq_false, if_false]
  rw [if_neg (by omega)]
  have hoff : names.indexOf e < names.length := List.indexOf_lt_length.mpr he
  obtain ⟨buffer, hb, hlen⟩ := shape_values_row n names s hs i hi
  have hset : i < s.m_papi_event_sets.length := by rw [hs.event_sets]; exact hi
  simp only [Int.toNat_ofNat, hb, List.getElem?_eq_getElem hset]
  rw [papi_store_getElem? _ _ _ (by omega)]
  refine ⟨{ s with m_papi_values_per_core :=
    s.m_papi_values_per_core.set i (papi_store PAPI_read.2 buffer) }, rfl, ?_⟩
  split <;> rfl

theorem read_cores_no_events (K : Host D) (PAPI_read : Nat → Int × (Nat → Int)) (n : Nat)
    (s : PapiIOGroup D) (hs : Shape n [] s) (todo core : Nat) (hn : core + todo ≤ n)
    (hok : ∀ c, c < n → (PAPI_read c).1 = K.PAPI_OK) :
    read_cores K PAPI_read todo core s = Outcome.ok () s := by
  induction todo generalizing core with
  | zero => rfl
  | succ todo ih =>
    rw [read_cores]
    obtain ⟨buffer, hb, hlen⟩ := shape_values_row n [] s hs core (by omega)
    have hnil : buffer = [] := List.length_eq_zero.mp (by simpa using hlen)
    subst hnil
    have hoff : s.m_signal_offsets.length = 0 := by rw [hs.offsets]; rfl
    have hset : s.m_papi_values_per_core.set core (papi_store (PAPI_read core).2 []) =
        s.m_papi_values_per_core := by
      apply List.ext_getElem?
      intro k
      rw [List.getElem?_set]
      split
      · rename_i hk
        subst hk
        have hlt := (List.getElem?_eq_some_iff.mp hb).1
        simp [hlt, hb, papi_store]
      · rfl
    simp only [hb, hok core (by omega), ne_eq, not_true_eq_false, if_false, hoff, copy_values,
      hset]
    exact ih (core + 1) (by omega)

/-- Without events a batch read whose reads succeed changes nothing. -/
theorem read_batch_no_events (K : Host D) (PAPI_read : Nat → Int × (Nat → Int)) (n : Nat)
    (s : PapiIOGroup D) (hs : Shape n [] s)
    (hok : ∀ c, c < n → (PAPI_read c).1 = K.PAPI_OK) :
    read_batch K s PAPI_read = Outcome.ok () s := by
  unfold read_batch
  exact read_cores_no_events K PAPI_read n s hs _ 0 (by rw [hs.event_sets]; omega) hok

theorem setup_cores_succeeds (K : Host D) (L : PapiLibrary) (todo i : Nat) (s : PapiIOGroup D)
    (hok : ∀ k, i ≤ k → k < i + todo →
      (L.PAPI_create_eventset k).1 = K.PAPI_OK ∧
      L.PAPI_assign_eventset_component k = K.PAPI_OK ∧
      L.PAPI_set_opt k = K.PAPI_OK ∧
      L.PAPI_set_multiplex k = K.PAPI_OK ∧
      L.PAPI_start k = K.PAPI_OK) :
    ∃ t, setup_cores K L [] todo i s = Except.ok t := by
  induction todo generalizing i s with
  | zero => exact ⟨_, rfl⟩
  | succ todo ih =>
    obtain ⟨h1, h2, h3, h4, h5⟩ := hok i (le_refl _) (by omega)
    rw [setup_cores]
    simp only [setup_core, h1, h2, h3, h4, h5, ne_eq, not_true_eq_false, if_false, add_events]
    apply ih
    intro k hk1 hk2
    exact hok k (by omega) (by omega)

/-- Without events the constructor succeeds as soon as the set-up calls do. -/
theorem construct_no_events (K : Host D) (L : PapiLibrary) (env_str : Option String)
    (hnames : event_names env_str = []) (hlib : setup_succeeds K L) :
    ∃ s, construct K L env_str = Except.ok s := by
  obtain ⟨h1, h2, h3, h4⟩ := hlib
  unfold construct
  simp only [hnames, h1, h2, h3, ne_eq, not_true_eq_false, if_false]
  obtain ⟨t, ht⟩ := setup_cores_succeeds K L (L.sockets * L.cores) 0
    { m_signal_offsets := []
      m_signals_per_core := []
      m_papi_values_per_core := []
      m_batch_values := []
      m_papi_event_sets := List.replicate (L.sockets * L.cores) K.PAPI_NULL }
    (fun k _ hk => h4 k (by omega))
  rw [ht]
  exact ⟨_, rfl⟩

theorem rows_eq_replicate {α : Type} (rows : List (List α)) (n : Nat) (h1 : rows.length = n)
    (h2 : ∀ row ∈ rows, row.length = 0) : rows = List.replicate n [] := by
  rw [List.eq_replicate_iff]
  exact ⟨h1, fun row hrow => List.length_eq_zero.mp (h2 row hrow)⟩

theorem push_signal_unknown (K : Host D) (s : PapiIOGroup D) (signal_name : String)
    (domain_type domain_idx : Int) (h : map_find s.m_signal_offsets signal_name = none) :
    push_signal K s signal_name domain_type domain_idx =
      Outcome.throws
        (Error.Exception ("PapiIOGroup::push_signal(): " ++ signal_name ++
          "not valid for PapiIOGroup") K.GEOPM_ERROR_INVALID) s := by
  unfold push_signal; rw [h]

theorem read_signal_unknown (K : Host D) (s : PapiIOGroup D) (signal_name : String)
    (domain_type domain_idx : Int) (PAPI_read : Int × (Nat → Int))
    (h : map_find s.m_signal_offsets signal_name = none) :
    read_signal K s signal_name domain_type domain_idx PAPI_read =
      Outcome.throws
        (Error.Exception ("PapiIOGroup::read_signal(): " ++ signal_name ++
          "not valid for PapiIOGroup") K.GEOPM_ERROR_INVALID) s := by
  unfold read_signal; rw [h]

theorem push_signal_wrong_domain (K : Host D) (s : PapiIOGroup D) (signal_name : String)
    (domain_type domain_idx : Int) (offset : Nat)
    (h : map_find s.m_signal_offsets signal_name = some offset)
    (hd : domain_type ≠ K.GEOPM_DOMAIN_CORE) :
    push_signal K s signal_name domain_type domain_idx =
      Outcome.throws
        (Error.Exception ("PapiIOGroup::push_signal(): domain_type " ++
          toString domain_type ++ "not valid for PapiIOGroup") K.GEOPM_ERROR_INVALID) s := by
  unfold push_signal; rw [h]; simp only [ne_eq, hd, not_false_eq_true, if_true]

theorem read_signal_wrong_domain (K : Host D) (s : PapiIOGroup D) (signal_name : String)
    (domain_type domain_idx : Int) (PAPI_read : Int × (Nat → Int)) (offset : Nat)
    (h : map_find s.m_signal_offsets signal_name = some offset)
    (hd : domain_type ≠ K.GEOPM_DOMAIN_CORE) :
    read_signal K s signal_name domain_type domain_idx PAPI_read =
      Outcome.throws
        (Error.Exception ("PapiIOGroup:read_signal(): domain_type " ++
          toString domain_type ++ "not valid for PapiIOGroup") K.GEOPM_ERROR_INVALID) s := by
  unfold read_signal; rw [h]; simp only [ne_eq, hd, not_false_eq_true, if_true]

/-- The calls of `push_signal` and `read_signal` that have a defined result:
all of them but those that pass the validation with a domain index that is
not a core of the machine. -/
theorem signal_calls_defined (K : Host D) (n : Nat) (names : List String) (s : PapiIOGroup D)
    (hs : Shape n names s) (signal_name : String) (domain_type domain_idx : Int)
    (PAPI_read : Int × (Nat → Int))
    (h : signal_name ∉ names ∨ domain_type ≠ K.GEOPM_DOMAIN_CORE ∨
      (0 ≤ domain_idx ∧ domain_idx < (n : Int))) :
    (push_signal K s signal_name domain_type domain_idx).state? ≠ none ∧
    (read_signal K s signal_name domain_type domain_idx PAPI_read).state? ≠ none := by
  have hfind : map_find s.m_signal_offsets signal_name =
      if signal_name ∈ names then some (names.indexOf signal_name) else none := by
    rw [hs.offsets, map_find_catalog]
  by_cases hn : signal_name ∈ names
  · rw [if_pos hn] at hfind
    by_cases hd : domain_type = K.GEOPM_DOMAIN_CORE
    · rcases h with h | h | ⟨h0, h1⟩
      · exact absurd hn h
      · exact absurd hd h
      · subst hd
        obtain ⟨i, rfl⟩ := Int.eq_ofNat_of_zero_le h0
        have hi : i < n := by omega
        obtain ⟨t, ht⟩ := push_signal_value K n names s hs signal_name hn i hi
        obtain ⟨u, _, hu⟩ := read_signal_value K n names s hs signal_name hn i hi PAPI_read
        rw [ht, hu]
        constructor
        · simp [Outcome.state?]
        · split <;> simp [Outcome.state?]
    · rw [push_signal_wrong_domain K s _ _ _ _ hfind hd,
        read_signal_wrong_domain K s _ _ _ _ _ hfind hd]
      simp [Outcome.state?]
  · rw [if_neg hn] at hfind
    rw [push_signal_unknown K s _ _ _ hfind, read_signal_unknown K s _ _ _ _ hfind]
    simp [Outcome.state?]

/-! ## The batch read, and event lists that repeat no name -/

theorem copy_values_spec (K : Host D) (row : List Int) (base todo i : Nat) (batch : List D)
    (hrow : i + todo ≤ row.length) (hb : base + i + todo ≤ batch.length) :
    ∃ out, copy_values K row base todo i batch = some out ∧
      ∀ j, out[j]? =
        if base + i ≤ j ∧ j < base + i + todo then (row[j - base]?).map K.static_cast_double
        else batch[j]? := by
  induction todo generalizing i batch with
  | zero =>
    refine ⟨batch, rfl, ?_⟩
    intro j
    rw [if_neg (by omega)]
  | succ todo ih =>
    have hi : i < row.length := by omega
    rw [copy_values, List.getElem?_eq_getElem hi]
    simp only
    rw [if_pos (by omega)]
    obtain ⟨out, hout, hspec⟩ := ih (i + 1)
      (batch.set (base + i) (K.static_cast_double row[i])) (by omega)
      (by rw [List.length_set]; omega)
    refine ⟨out, hout, ?_⟩
    intro j
    rw [hspec j]
    by_cases hj : j = base + i
    · subst hj
      rw [if_neg (by omega), if_pos (by omega)]
      rw [List.getElem?_set]
      simp only [if_true]
      rw [if_pos (by omega)]
      simp [List.getElem?_eq_getElem hi]
    · by_cases hr : base + (i + 1) ≤ j ∧ j < base + (i + 1) + todo
      · rw [if_pos hr, if_pos (by omega)]
      · rw [if_neg hr, if_neg (by omega), List.getElem?_set]
        rw [if_neg (by omega)]

/-- The loop invariant of `read_batch`: when the reads succeed, the cores from
`core` on have their values in their slots, and the slots of the cores before
`core` are as they were. -/
theorem read_cores_spec (K : Host D) (PAPI_read : Nat → Int × (Nat → Int)) (n : Nat)
    (names : List String) (todo core : Nat) (s : PapiIOGroup D) (hs : Shape n names s)
    (hn : core + todo = n) (hok : ∀ c, c < n → (PAPI_read c).1 = K.PAPI_OK) :
    ∃ t, read_cores K PAPI_read todo core s = Outcome.ok () t ∧
      (∀ c i, core ≤ c → c < n → i < s.m_signal_offsets.length →
        t.m_batch_values[c * s.m_signal_offsets.length + i]? =
          some (K.static_cast_double ((PAPI_read c).2 i))) ∧
      (∀ j, j < core * s.m_signal_offsets.length →
        t.m_batch_values[j]? = s.m_batch_values[j]?) := by
  induction todo generalizing core s with
  | zero =>
    refine ⟨s, rfl, ?_, fun _ _ => rfl⟩
    intro c i h1 h2
    omega
  | succ todo ih =>
    have hsize : s.m_signal_offsets.length ≤ names.length := by
      rw [hs.offsets]; exact fill_offsets_length_le names
    obtain ⟨buffer, hb, hlen⟩ := shape_values_row n names s hs core (by omega)
    have hmul : (core + 1) * s.m_signal_offsets.length ≤ n * names.length :=
      Nat.mul_le_mul (by omega) hsize
    rw [Nat.add_mul, Nat.one_mul] at hmul
    obtain ⟨out, hout, hspec⟩ := copy_values_spec K (papi_store (PAPI_read core).2 buffer)
      (core * s.m_signal_offsets.length) s.m_signal_offsets.length 0 s.m_batch_values
      (by rw [papi_store_length]; omega) (by rw [hs.batch]; omega)
    have hs1 : Shape n names
        { s with
          m_papi_values_per_core :=
            s.m_papi_values_per_core.set core (papi_store (PAPI_read core).2 buffer)
          m_batch_values := out } := by
      obtain ⟨c1, c2⟩ := rows_of_lengths _ _ _
        (set_store_lengths s.m_papi_values_per_core core buffer (PAPI_read core).2 hb)
        hs.values_rows
      exact ⟨hs.offsets, hs.event_sets, hs.signals_length, hs.signals_rows,
        c1.trans hs.values_length, c2,
        (copy_values_length K _ _ _ _ _ _ hout).trans hs.batch⟩
    obtain ⟨t, ht, hnew, hold⟩ := ih (core + 1) _ hs1 (by omega)
    refine ⟨t, ?_, ?_, ?_⟩
    · rw [read_cores]
      simp only [hb, hok core (by omega), ne_eq, not_true_eq_false, if_false, hout]
      exact ht
    · intro c i h1 h2 h3
      by_cases hc : c = core
      · subst hc
        have := hold (c * s.m_signal_offsets.length + i)
          (by simp only [Nat.add_mul, Nat.one_mul]; omega)
        rw [this]
        simp only
        rw [hspec, if_pos (by omega)]
        simp only [Nat.add_sub_cancel_left]
        rw [papi_store_getElem? _ _ _ (by omega)]
        rfl
      · exact hnew c i (by omega) h2 h3
    · intro j hj
      have hlt : j < (core + 1) * s.m_signal_offsets.length := by
        rw [Nat.add_mul, Nat.one_mul]; omega
      rw [hold j hlt]
      simp only
      rw [hspec, if_neg (by omega)]

/-- What a `read_batch` whose reads succeed leaves in the sample buffer: the
value read for position `i` on core `c` is in the slot `c * size + i`, where
`size` is the size of the catalog. -/
theorem read_batch_spec (K : Host D) (PAPI_read : Nat → Int × (Nat → Int)) (n : Nat)
    (names : List String) (s : PapiIOGroup D) (hs : Shape n names s)
    (hok : ∀ c, c < n → (PAPI_read c).1 = K.PAPI_OK) :
    ∃ t, read_batch K s PAPI_read = Outcome.ok () t ∧
      ∀ c i, c < n → i < names.toFinset.card →
        t.m_batch_values[c * names.toFinset.card + i]? =
          some (K.static_cast_double ((PAPI_read c).2 i)) := by
  unfold read_batch
  rw [hs.event_sets]
  obtain ⟨t, ht, hnew, _⟩ := read_cores_spec K PAPI_read n names n 0 s hs (by omega) hok
  have hsize : s.m_signal_offsets.length = names.toFinset.card := by
    rw [hs.offsets, fill_offsets_length]
  rw [hsize] at hnew
  exact ⟨t, ht, fun c i h1 h2 => hnew c i (Nat.zero_le _) h1 h2⟩

theorem index_law_of_nodup (K : Host D) (n : Nat) (names : List String) (s : PapiIOGroup D)
    (hs : Shape n names s) (hnodup : names.Nodup) (e : String) (he : e ∈ names) (i : Nat)
    (hi : i < n) :
    ∃ t, push_signal K s e K.GEOPM_DOMAIN_CORE (i : Int) =
      Outcome.ok ((i : Int) * (names.length : Int) + (names.indexOf e : Int)) t := by
  obtain ⟨t, ht⟩ := push_signal_value K n names s hs e he i hi
  rw [List.toFinset_card_of_nodup hnodup] at ht
  exact ⟨t, ht⟩

/-- A flat index `i * len + k` with `k < len` determines `i` and `k`. -/
theorem flat_index_injective (len i1 i2 k1 k2 : Nat) (h1 : k1 < len) (h2 : k2 < len)
    (h : i1 * len + k1 = i2 * len + k2) : i1 = i2 ∧ k1 = k2 := by
  have hpos : 0 < len := by omega
  have hdiv := congrArg (fun x => x / len) h
  have hmod := congrArg (fun x => x % len) h
  simp only [Nat.mul_comm _ len] at hdiv hmod
  rw [Nat.mul_add_div hpos, Nat.mul_add_div hpos, Nat.div_eq_of_lt h1,
    Nat.div_eq_of_lt h2] at hdiv
  rw [Nat.mul_add_mod, Nat.mul_add_mod, Nat.mod_eq_of_lt h1, Nat.mod_eq_of_lt h2] at hmod
  exact ⟨by simpa using hdiv, hmod⟩

/-- A call of `push_signal` that returns was made with a requested name. -/
theorem push_signal_ok_requested (K : Host D) (n : Nat) (names : List String)
    (s t : PapiIOGroup D) (hs : Shape n names s) (e : String) (domain_type domain_idx handle : Int)
    (h : push_signal K s e domain_type domain_idx = Outcome.ok handle t) : e ∈ names := by
  by_contra hn
  have hfind : map_find s.m_signal_offsets e = none := by
    rw [hs.offsets, map_find_catalog, if_neg hn]
  rw [push_signal_unknown K s e domain_type domain_idx hfind] at h
  cases h

theorem read_cores_ok_reads (K : Host D) (PAPI_read : Nat → Int × (Nat → Int)) (todo core : Nat)
    (s t : PapiIOGroup D) (h : read_cores K PAPI_read todo core s = Outcome.ok () t) :
    ∀ c, core ≤ c → c < core + todo → (PAPI_read c).1 = K.PAPI_OK := by
  induction todo generalizing core s with
  | zero => intro c h1 h2; omega
  | succ todo ih =>
    rw [read_cores] at h
    split at h
    · cases h
    · split at h
      · cases h
      · rename_i hok
        split at h
        · cases h
        · intro c h1 h2
          by_cases hc : c = core
          · subst hc
            exact not_not.mp hok
          · exact ih _ _ h c (by omega) (by omega)

/-- A `read_batch` that returns has made a successful read on every core. -/
theorem read_batch_ok_reads (K : Host D) (PAPI_read : Nat → Int × (Nat → Int)) (n : Nat)
    (names : List String) (s t : PapiIOGroup D) (hs : Shape n names s)
    (h : read_batch K s PAPI_read = Outcome.ok () t) :
    ∀ c, c < n → (PAPI_read c).1 = K.PAPI_OK := by
  unfold read_batch at h
  rw [hs.event_sets] at h
  intro c hc
  exact read_cores_ok_reads K PAPI_read n 0 s t h c (Nat.zero_le _) (by omega)

/-- The round trip for an event list that repeats no name: after a `read_batch`
that returns, the slot `i * event_count + index_of(e)` holds the value that
this `read_batch` read for `e` on core `i`. -/
theorem round_trip_of_nodup (K : Host D) (n : Nat) (names : List String)
    (s1 s2 : PapiIOGroup D) (hs : Shape n names s1) (hnodup : names.Nodup)
    (e : String) (he : e ∈ names) (i : Nat) (hi : i < n)
    (PAPI_read : Nat → Int × (Nat → Int))
    (hread : read_batch K s1 PAPI_read = Outcome.ok () s2) :
    sample K s2 ((i : Int) * (names.length : Int) + (names.indexOf e : Int)) =
      Outcome.ok (K.static_cast_double ((PAPI_read i).2 (names.indexOf e))) s2 := by
  have hok := read_batch_ok_reads K PAPI_read n names s1 s2 hs hread
  obtain ⟨t, ht, hval⟩ := read_batch_spec K PAPI_read n names s1 hs hok
  rw [hread] at ht
  simp only [Outcome.ok.injEq, true_and] at ht
  subst ht
  have hshape2 : Shape n names s2 :=
    read_batch_shape K _ _ s1 s2 PAPI_read hs (by rw [hread]; rfl)
  have hlt : names.indexOf e < names.length := List.indexOf_lt_length.mpr he
  have hslot := hval i (names.indexOf e) hi
    (by rw [List.toFinset_card_of_nodup hnodup]; exact hlt)
  rw [List.toFinset_card_of_nodup hnodup] at hslot
  have hidx : ((i : Int) * (names.length : Int) + (names.indexOf e : Int)).toNat =
      i * names.length + names.indexOf e := by
    have : ((i : Int) * (names.length : Int) + (names.indexOf e : Int)) =
        ((i * names.length + names.indexOf e : Nat) : Int) := by
      push_cast; rfl
    rw [this, Int.toNat_ofNat]
  have hbound : i * names.length + names.indexOf e < n * names.length := by
    have : (i + 1) * names.length ≤ n * names.length := Nat.mul_le_mul_right _ (by omega)
    rw [Nat.add_mul, Nat.one_mul] at this
    omega
  obtain ⟨v, hv1, hv2⟩ := sample_in_range K s2
    ((i : Int) * (names.length : Int) + (names.indexOf e : Int))
    (by positivity) (by rw [hshape2.batch]; exact_mod_cast hbound)
  rw [hidx, hslot] at hv1
  rw [hv2]
  simp only [Option.some.injEq] at hv1
  rw [hv1]

/-! ## The event lists an adapter can be built from -/

theorem add_events_ok (K : Host D) (L : PapiLibrary) (core : Nat) (names : List String)
    (j : Nat) (sigs out : List signal_s)
    (h : add_events K L core j names sigs = Except.ok out) :
    ∀ k, k < names.length → L.PAPI_add_event core (j + k) = K.PAPI_OK := by
  induction names generalizing j sigs with
  | nil => intro k hk; simp at hk
  | cons name rest ih =>
    rw [add_events] at h
    split at h
    · cases h
    · split at h
      · cases h
      · rename_i hadd
        intro k hk
        cases k with
        | zero => exact not_not.mp hadd
        | succ k =>
          have := ih (j + 1) _ h k (by simpa using hk)
          rw [show j + (k + 1) = j + 1 + k by omega]
          exact this

theorem setup_cores_first (K : Host D) (L : PapiLibrary) (names : List String) (todo i : Nat)
    (s t : PapiIOGroup D) (h : setup_cores K L names (todo + 1) i s = Except.ok t) :
    ∃ sigs, add_events K L i 0 names [] = Except.ok sigs := by
  rw [setup_cores] at h
  split at h
  · cases h
  · rename_i s1 h1
    unfold setup_core at h1
    split at h1
    · cases h1
    split at h1
    · cases h1
    split at h1
    · cases h1
    split at h1
    · cases h1
    split at h1
    · cases h1
    · rename_i sigs hsigs
      exact ⟨sigs, hsigs⟩

/-- On a machine with a core, the constructor returns only if every event of
the list was added to the event set of core 0. -/
theorem construct_adds (K : Host D) (L : PapiLibrary) (env_str : Option String)
    (s : PapiIOGroup D) (h : construct K L env_str = Except.ok s)
    (hcore : 0 < L.sockets * L.cores) :
    ∀ k, k < (event_names env_str).length → L.PAPI_add_event 0 k = K.PAPI_OK := by
  unfold construct at h
  simp only at h
  split at h
  · cases h
  split at h
  · cases h
  split at h
  · cases h
  split at h
  · cases h
  · rename_i s1 h1
    obtain ⟨m, hm⟩ : ∃ m, L.sockets * L.cores = m + 1 := ⟨L.sockets * L.cores - 1, by omega⟩
    rw [hm] at h1
    obtain ⟨sigs, hsigs⟩ := setup_cores_first K L _ _ _ _ _ h1
    intro k hk
    have := add_events_ok K L 0 _ 0 [] sigs hsigs k hk
    simpa using this

theorem Reachable.constructed {K : Host D} {L : PapiLibrary} {env_str : Option String}
    {s : PapiIOGroup D} (h : Reachable K L env_str s) :
    ∃ s0, PapiIOGroup.construct K L env_str = Except.ok s0 := by
  induction h with
  | construct hc => exact ⟨_, hc⟩
  | push_signal _ _ _ _ _ ih => exact ih
  | push_control _ _ _ _ _ ih => exact ih
  | read_batch _ _ _ ih => exact ih
  | write_batch _ _ ih => exact ih
  | sample _ _ _ ih => exact ih
  | adjust _ _ _ _ ih => exact ih
  | read_signal _ _ _ _ _ _ ih => exact ih
  | write_control _ _ _ _ _ _ ih => exact ih
  | save_control _ _ ih => exact ih
  | restore_control _ _ ih => exact ih

/-- With a counter library that refuses an event that is already in the event
set, an adapter of a machine with a core has an event list that repeats no
name: for any other list the constructor throws. -/
theorem Reachable.event_names_nodup {K : Host D} {L : PapiLibrary} {env_str : Option String}
    {s : PapiIOGroup D} (h : Reachable K L env_str s)
    (hlib : refuses_repeated_event K L (event_names env_str))
    (hcore : 0 < L.sockets * L.cores) : (event_names env_str).Nodup := by
  obtain ⟨s0, hc⟩ := h.constructed
  have hadds := construct_adds K L env_str s0 hc hcore
  rw [List.nodup_iff_getElem?_ne_getElem?]
  intro j1 j2 hlt hj2 heq
  exact hlib 0 hcore j2 hj2 j1 hlt heq (hadds j2 hj2)

/-- An event list that repeats no name asks nothing of the counter library. -/
theorem refuses_repeated_event_of_nodup (K : Host D) (L : PapiLibrary) (names : List String)
    (hnodup : names.Nodup) : refuses_repeated_event K L names := by
  intro core _ j2 hj2 j1 hlt heq
  exact absurd heq ((List.nodup_iff_getElem?_ne_getElem?.mp hnodup) j1 j2 hlt hj2)

/-! ## The claims -/

/-- C3: on every state of an adapter, `sample(index)` throws the invalid-argument
exception that names the index exactly when `index < 0` or
`index >= core_count * event_count`, the length of the sample buffer, in
particular for the indices `-1` and `core_count * event_count`; for every
other index it returns the value stored in that slot; in both cases the state
of the adapter is unchanged. -/
theorem sample_bounds_check (K : Host D) (L : PapiLibrary) (env_str : Option String)
    (s : PapiIOGroup D) (h : Reachable K L env_str s) (batch_idx : Int) :
    s.m_batch_values.length = L.sockets * L.cores * (event_names env_str).length ∧
    ((batch_idx < 0 ∨
        batch_idx ≥ ((L.sockets * L.cores * (event_names env_str).length : Nat) : Int)) →
      sample K s batch_idx =
        Outcome.throws
          (Error.Exception ("PapiIOGroup::sample(): batch_idx " ++ toString batch_idx ++
            " not valid for PapiIOGroup") K.GEOPM_ERROR_INVALID) s) ∧
    (¬ (batch_idx < 0 ∨
        batch_idx ≥ ((L.sockets * L.cores * (event_names env_str).length : Nat) : Int)) →
      ∃ v, s.m_batch_values[batch_idx.toNat]? = some v ∧
        sample K s batch_idx = Outcome.ok v s) ∧
    ((∃ e, (sample K s batch_idx).error? = some e) ↔
      (batch_idx < 0 ∨
        batch_idx ≥ ((L.sockets * L.cores * (event_names env_str).length : Nat) : Int))) ∧
    (sample K s (-1)).error? =
      some (Error.Exception ("PapiIOGroup::sample(): batch_idx " ++ toString (-1 : Int) ++
        " not valid for PapiIOGroup") K.GEOPM_ERROR_INVALID) ∧
    (sample K s ((L.sockets * L.cores * (event_names env_str).length : Nat) : Int)).error? =
      some (Error.Exception ("PapiIOGroup::sample(): batch_idx " ++
        toString (((L.sockets * L.cores * (event_names env_str).length : Nat) : Int)) ++
        " not valid for PapiIOGroup") K.GEOPM_ERROR_INVALID) := by
  have hlen := h.shape.batch
  have hout : ∀ idx : Int, (idx < 0 ∨
      idx ≥ ((L.sockets * L.cores * (event_names env_str).length : Nat) : Int)) →
      sample K s idx = Outcome.throws
        (Error.Exception ("PapiIOGroup::sample(): batch_idx " ++ toString idx ++
          " not valid for PapiIOGroup") K.GEOPM_ERROR_INVALID) s := by
    intro idx hidx
    apply sample_out_of_range
    rw [hlen]; exact hidx
  have hin : ∀ idx : Int, ¬ (idx < 0 ∨
      idx ≥ ((L.sockets * L.cores * (event_names env_str).length : Nat) : Int)) →
      ∃ v, s.m_batch_values[idx.toNat]? = some v ∧ sample K s idx = Outcome.ok v s := by
    intro idx hidx
    apply sample_in_range
    · omega
    · rw [hlen]; omega
  refine ⟨hlen, hout batch_idx, hin batch_idx, ?_, ?_, ?_⟩
  · constructor
    · rintro ⟨e, he⟩
      by_contra hc
      obtain ⟨v, _, hv⟩ := hin batch_idx hc
      rw [hv] at he
      simp [Outcome.error?] at he
    · intro hc
      rw [hout batch_idx hc]
      exact ⟨_, rfl⟩
  · rw [hout (-1) (Or.inl (by omega))]; rfl
  · rw [hout _ (Or.inr (le_refl _))]; rfl

/-- C4: on every state of an adapter, `push_signal` and `read_signal` throw the
invalid-signal exception naming the signal when the name is not a requested
event name, whatever the domain type, the domain index and the answer of the
counter library are, and throw the invalid-domain exception naming the domain
type when the name is requested and the domain type is not the core domain;
in both cases the state of the adapter is unchanged.  `is_valid_signal` is
false exactly for the names that are not requested. -/
theorem signal_validation (K : Host D) (L : PapiLibrary) (env_str : Option String)
    (s : PapiIOGroup D) (h : Reachable K L env_str s) (signal_name : String)
    (domain_type domain_idx : Int) (PAPI_read : Int × (Nat → Int)) :
    (is_valid_signal s signal_name = false ↔ signal_name ∉ event_names env_str) ∧
    (signal_name ∉ event_names env_str →
      push_signal K s signal_name domain_type domain_idx =
        Outcome.throws
          (Error.Exception ("PapiIOGroup::push_signal(): " ++ signal_name ++
            "not valid for PapiIOGroup") K.GEOPM_ERROR_INVALID) s ∧
      read_signal K s signal_name domain_type domain_idx PAPI_read =
        Outcome.throws
          (Error.Exception ("PapiIOGroup::read_signal(): " ++ signal_name ++
            "not valid for PapiIOGroup") K.GEOPM_ERROR_INVALID) s) ∧
    (signal_name ∈ event_names env_str → domain_type ≠ K.GEOPM_DOMAIN_CORE →
      push_signal K s signal_name domain_type domain_idx =
        Outcome.throws
          (Error.Exception ("PapiIOGroup::push_signal(): domain_type " ++
            toString domain_type ++ "not valid for PapiIOGroup") K.GEOPM_ERROR_INVALID) s ∧
      read_signal K s signal_name domain_type domain_idx PAPI_read =
        Outcome.throws
          (Error.Exception ("PapiIOGroup:read_signal(): domain_type " ++
            toString domain_type ++ "not valid for PapiIOGroup") K.GEOPM_ERROR_INVALID) s) := by
  have hs := h.shape
  have hfind : map_find s.m_signal_offsets signal_name =
      if signal_name ∈ event_names env_str then
        some ((event_names env_str).indexOf signal_name) else none := by
    rw [hs.offsets, map_find_catalog]
  refine ⟨?_, ?_, ?_⟩
  · rw [← is_valid_signal_iff _ _ s hs signal_name]
    simp
  · intro hn
    rw [if_neg hn] at hfind
    exact ⟨push_signal_unknown K s _ _ _ hfind, read_signal_unknown K s _ _ _ _ hfind⟩
  · intro hn hd
    rw [if_pos hn] at hfind
    exact ⟨push_signal_wrong_domain K s _ _ _ _ hfind hd,
      read_signal_wrong_domain K s _ _ _ _ _ hfind hd⟩

/-- C5: the adapter is read-only.  On every state and for all arguments,
`control_names` is empty, `is_valid_control` is false, `control_domain_type`
is the invalid-domain constant, `push_control`, `adjust`, `write_control` and
`control_description` throw the "PapiIOGroup has no controls" exception, and
`write_batch`, `save_control` and `restore_control` return; every one of the
calls leaves the state of the adapter as it was. -/
theorem controls_unsupported (K : Host D) (s : PapiIOGroup D) (control_name : String)
    (domain_type domain_idx batch_idx : Int) (setting : D) :
    control_names s = ∅ ∧
    is_valid_control s control_name = false ∧
    control_domain_type K s control_name = K.GEOPM_DOMAIN_INVALID ∧
    push_control K s control_name domain_type domain_idx =
      Outcome.throws (Error.Exception "PapiIOGroup has no controls" K.GEOPM_ERROR_INVALID) s ∧
    adjust K s batch_idx setting =
      Outcome.throws (Error.Exception "PapiIOGroup has no controls" K.GEOPM_ERROR_INVALID) s ∧
    write_control K s control_name domain_type domain_idx setting =
      Outcome.throws (Error.Exception "PapiIOGroup has no controls" K.GEOPM_ERROR_INVALID) s ∧
    control_description K s control_name =
      Except.error (Error.Exception "PapiIOGroup has no controls" K.GEOPM_ERROR_INVALID) ∧
    write_batch s = Outcome.ok () s ∧
    save_control s = Outcome.ok () s ∧
    restore_control s = Outcome.ok () s :=
  ⟨rfl, rfl, rfl, rfl, rfl, rfl, rfl, rfl, rfl, rfl⟩

/-- C6: for every value of `GEOPM_PAPI_EVENTS` and every state of an adapter
built from it, `signal_names` is the set of the whitespace-separated tokens of
the string, `is_valid_signal(x)` holds exactly when `x` is in `signal_names`,
and `signal_domain_type(x)` is the core domain for those names and the
invalid-domain constant for the others. -/
theorem event_catalog (K : Host D) (L : PapiLibrary) (str : String) (s : PapiIOGroup D)
    (h : Reachable K L (some str) s) :
    signal_names s = (whitespace_separated_tokens str).toFinset ∧
    (∀ x, is_valid_signal s x = true ↔ x ∈ signal_names s) ∧
    (∀ x, signal_domain_type K s x =
      if x ∈ signal_names s then K.GEOPM_DOMAIN_CORE else K.GEOPM_DOMAIN_INVALID) := by
  have hs := h.shape
  have hnames : signal_names s = (whitespace_separated_tokens str).toFinset := by
    unfold signal_names
    rw [hs.offsets, fill_offsets_keys_toFinset]
    simp [event_names, istream_words_eq_tokens]
  have hvalid : ∀ x, is_valid_signal s x = true ↔ x ∈ signal_names s := by
    intro x
    rw [is_valid_signal_iff _ _ s hs x, hnames]
    simp [event_names, istream_words_eq_tokens]
  refine ⟨hnames, hvalid, ?_⟩
  intro x
  unfold signal_domain_type
  by_cases hx : x ∈ signal_names s
  · rw [if_pos ((hvalid x).mpr hx), if_pos hx]
  · have : ¬ is_valid_signal s x = true := fun hv => hx ((hvalid x).mp hv)
    rw [if_neg this, if_neg hx]

/-- C7: only `read_batch` refreshes the sample buffer.  On every state of an
adapter and for all arguments, a call of `push_signal`, `sample`,
`read_signal`, `write_batch`, `save_control` or `restore_control` that returns
or throws leaves the sample buffer as it was, so `sample(k)` gives the same
result before and after it.  The calls have a defined result whenever the
name is not requested, the domain type is not the core domain, or the domain
index is a core of the machine.  A `read_signal` for a requested name on a
core of the machine whose read succeeds returns the value just read for that
event, converted to a double, and does not touch the sample buffer. -/
theorem sample_buffer_frame (K : Host D) (L : PapiLibrary) (env_str : Option String)
    (s : PapiIOGroup D) (h : Reachable K L env_str s) (signal_name : String)
    (domain_type domain_idx batch_idx k : Int) (PAPI_read : Int × (Nat → Int)) :
    (∀ t, (push_signal K s signal_name domain_type domain_idx).state? = some t →
      t.m_batch_values = s.m_batch_values ∧
      (sample K t k).value? = (sample K s k).value? ∧
      (sample K t k).error? = (sample K s k).error?) ∧
    (∀ t, (sample K s batch_idx).state? = some t →
      t.m_batch_values = s.m_batch_values ∧
      (sample K t k).value? = (sample K s k).value? ∧
      (sample K t k).error? = (sample K s k).error?) ∧
    (∀ t, (read_signal K s signal_name domain_type domain_idx PAPI_read).state? = some t →
      t.m_batch_values = s.m_batch_values ∧
      (sample K t k).value? = (sample K s k).value? ∧
      (sample K t k).error? = (sample K s k).error?) ∧
    write_batch s = Outcome.ok () s ∧
    save_control s = Outcome.ok () s ∧
    restore_control s = Outcome.ok () s ∧
    ((signal_name ∉ event_names env_str ∨ domain_type ≠ K.GEOPM_DOMAIN_CORE ∨
        (0 ≤ domain_idx ∧ domain_idx < ((L.sockets * L.cores : Nat) : Int))) →
      (push_signal K s signal_name domain_type domain_idx).state? ≠ none ∧
      (read_signal K s signal_name domain_type domain_idx PAPI_read).state? ≠ none) ∧
    (sample K s batch_idx).state? = some s ∧
    (signal_name ∈ event_names env_str → domain_type = K.GEOPM_DOMAIN_CORE →
      0 ≤ domain_idx → domain_idx < ((L.sockets * L.cores : Nat) : Int) →
      PAPI_read.1 = K.PAPI_OK →
      ∃ t, t.m_batch_values = s.m_batch_values ∧
        read_signal K s signal_name domain_type domain_idx PAPI_read =
          Outcome.ok
            (K.static_cast_double
              (PAPI_read.2 ((event_names env_str).indexOf signal_name))) t) := by
  have hs := h.shape
  refine ⟨?_, ?_, ?_, rfl, rfl, rfl, ?_, ?_, ?_⟩
  · intro t ht
    have hb := (push_signal_state K s t _ _ _ ht).2.2.1
    exact ⟨hb, sample_congr K s t k hb⟩
  · intro t ht
    have hb : t.m_batch_values = s.m_batch_values := by rw [sample_state K s t _ ht]
    exact ⟨hb, sample_congr K s t k hb⟩
  · intro t ht
    have hb := (read_signal_state K s t _ _ _ _ ht).2.2.1
    exact ⟨hb, sample_congr K s t k hb⟩
  · exact signal_calls_defined K _ _ s hs signal_name domain_type domain_idx PAPI_read
  · by_cases hc : batch_idx < 0 ∨ batch_idx ≥ (s.m_batch_values.length : Int)
    · rw [sample_out_of_range K s _ hc]; rfl
    · obtain ⟨v, _, hv⟩ := sample_in_range K s batch_idx (by omega) (by omega)
      rw [hv]; rfl
  · intro hn hd h0 h1 hok
    subst hd
    obtain ⟨i, rfl⟩ := Int.eq_ofNat_of_zero_le h0
    obtain ⟨t, ht1, ht2⟩ := read_signal_value K _ _ s hs signal_name hn i (by omega) PAPI_read
    refine ⟨t, ht1, ?_⟩
    rw [ht2, if_neg (by simp [hok])]

/-- C8, as amended: on a freshly constructed adapter `sample(0)` returns the
double 0 when there is at least one core and at least one requested event,
and throws the invalid-argument exception when `core_count * event_count` is
zero; the sample buffer is made of `core_count * event_count` zeros. -/
theorem fresh_sample_zero (K : Host D) (L : PapiLibrary) (env_str : Option String)
    (s : PapiIOGroup D) (h : construct K L env_str = Except.ok s) :
    s.m_batch_values =
      List.replicate (L.sockets * L.cores * (event_names env_str).length)
        (K.static_cast_double 0) ∧
    (0 < L.sockets * L.cores * (event_names env_str).length →
      sample K s 0 = Outcome.ok (K.static_cast_double 0) s) ∧
    (L.sockets * L.cores * (event_names env_str).length = 0 →
      sample K s 0 =
        Outcome.throws
          (Error.Exception ("PapiIOGroup::sample(): batch_idx " ++ toString (0 : Int) ++
            " not valid for PapiIOGroup") K.GEOPM_ERROR_INVALID) s) := by
  obtain ⟨hs, hb⟩ := construct_fields K L env_str s h
  refine ⟨hb, ?_, ?_⟩
  · intro hpos
    obtain ⟨v, hv1, hv2⟩ := sample_in_range K s 0 (le_refl _) (by rw [hs.batch]; omega)
    rw [hb] at hv1
    simp only [Int.toNat_zero] at hv1
    rw [List.getElem?_replicate] at hv1
    simp only [hpos, if_true, Option.some.injEq] at hv1
    rw [hv2, ← hv1]
  · intro hzero
    apply sample_out_of_range
    right
    rw [hs.batch, hzero]
    simp

/-- C9: when `GEOPM_PAPI_EVENTS` is unset, empty or made of whitespace only
and the set-up calls of the counter library succeed, the constructor succeeds
for every core count; the adapter has one event set and one empty list of
events and of values per core, `signal_names` is empty, `is_valid_signal` is
false for every name, the sample buffer is empty, and on every later state a
`read_batch` whose reads succeed returns and leaves the state unchanged. -/
theorem zero_signal_scenario (K : Host D) (L : PapiLibrary) (env_str : Option String)
    (henv : env_str = none ∨ ∃ str, env_str = some str ∧ ∀ c ∈ str.data, isspace c = true)
    (hlib : setup_succeeds K L) :
    ∃ s, construct K L env_str = Except.ok s ∧
      s.m_papi_event_sets.length = L.sockets * L.cores ∧
      s.m_signals_per_core = List.replicate (L.sockets * L.cores) [] ∧
      s.m_papi_values_per_core = List.replicate (L.sockets * L.cores) [] ∧
      s.m_batch_values = [] ∧
      signal_names s = ∅ ∧
      (∀ x, is_valid_signal s x = false) ∧
      ∀ t, Reachable K L env_str t →
        ∀ PAPI_read : Nat → Int × (Nat → Int),
          (∀ core, core < L.sockets * L.cores → (PAPI_read core).1 = K.PAPI_OK) →
          read_batch K t PAPI_read = Outcome.ok () t := by
  have hnames : event_names env_str = [] := by
    rcases henv with h | ⟨str, h, hws⟩
    · subst h; rfl
    · subst h; exact istream_words_whitespace str hws
  obtain ⟨s, hc⟩ := construct_no_events K L env_str hnames hlib
  obtain ⟨hs, hb⟩ := construct_fields K L env_str s hc
  rw [hnames] at hs hb
  refine ⟨s, hc, hs.event_sets, ?_, ?_, ?_, ?_, ?_, ?_⟩
  · exact rows_eq_replicate _ _ hs.signals_length (by simpa using hs.signals_rows)
  · exact rows_eq_replicate _ _ hs.values_length (by simpa using hs.values_rows)
  · simpa using hb
  · unfold signal_names; rw [hs.offsets]; rfl
  · intro x
    unfold is_valid_signal; rw [hs.offsets]; rfl
  · intro t ht rd hrd
    have hts := ht.shape
    rw [hnames] at hts
    exact read_batch_no_events K rd _ t hts hrd

/-- C1: the index law.  With a counter library that refuses an event that is
already in the event set, on every state of an adapter built from any core
count and any list of requested event names, for every name `e` of the list and
every core index `i < core_count`, `push_signal(e, CORE, i)` returns
`i * event_count + index_of(e)`, where `event_count` is the length of the list
and `index_of(e)` the position of `e` in it. -/
theorem push_signal_index_law (K : Host D) (L : PapiLibrary) (env_str : Option String)
    (s : PapiIOGroup D) (h : Reachable K L env_str s)
    (hlib : refuses_repeated_event K L (event_names env_str))
    (e : String) (he : e ∈ event_names env_str) (i : Nat) (hi : i < L.sockets * L.cores) :
    ∃ t, push_signal K s e K.GEOPM_DOMAIN_CORE (i : Int) =
        Outcome.ok ((i : Int) * ((event_names env_str).length : Int) +
          ((event_names env_str).indexOf e : Int)) t ∧
      (event_names env_str)[(event_names env_str).indexOf e]? = some e ∧
      ∀ j, (event_names env_str)[j]? = some e → j = (event_names env_str).indexOf e := by
  have hnodup := h.event_names_nodup hlib (by omega)
  obtain ⟨t, ht⟩ := index_law_of_nodup K _ _ s h.shape hnodup e he i hi
  have hlt : (event_names env_str).indexOf e < (event_names env_str).length :=
    List.indexOf_lt_length.mpr he
  refine ⟨t, ht, ?_, ?_⟩
  · exact List.getElem?_indexOf he
  · intro j hj
    obtain ⟨hjlt, hje⟩ := List.getElem?_eq_some_iff.mp hj
    have := List.indexOf_getElem hnodup j hjlt
    rw [hje] at this
    exact this.symm

/-- C2: the round trip.  With a counter library that refuses an event that is
already in the event set, on every state of an adapter, for every requested
name `e` and every core index `i < core_count`, `h = push_signal(e, CORE, i)`
returns, and whenever a later `read_batch` returns, `sample(h)` returns the
value that this `read_batch` read for the event `e` on core `i`, converted to
a double; a `read_batch` whose reads all succeed returns. -/
theorem push_read_sample_round_trip (K : Host D) (L : PapiLibrary)
    (env_str : Option String) (s : PapiIOGroup D) (h : Reachable K L env_str s)
    (hlib : refuses_repeated_event K L (event_names env_str))
    (e : String) (he : e ∈ event_names env_str) (i : Nat) (hi : i < L.sockets * L.cores) :
    ∃ handle t,
      push_signal K s e K.GEOPM_DOMAIN_CORE (i : Int) = Outcome.ok handle t ∧
      Reachable K L env_str t ∧
      ∀ s1, Reachable K L env_str s1 → ∀ PAPI_read : Nat → Int × (Nat → Int),
        ((∀ c, c < L.sockets * L.cores → (PAPI_read c).1 = K.PAPI_OK) →
          ∃ s2, read_batch K s1 PAPI_read = Outcome.ok () s2) ∧
        ∀ s2, read_batch K s1 PAPI_read = Outcome.ok () s2 →
          sample K s2 handle =
            Outcome.ok
              (K.static_cast_double
                ((PAPI_read i).2 ((event_names env_str).indexOf e))) s2 := by
  have hnodup := h.event_names_nodup hlib (by omega)
  obtain ⟨t, ht⟩ := index_law_of_nodup K _ _ s h.shape hnodup e he i hi
  refine ⟨_, t, ht, Reachable.push_signal e _ _ h (by rw [ht]; rfl), ?_⟩
  intro s1 h1 PAPI_read
  constructor
  · intro hok
    obtain ⟨s2, hs2, _⟩ := read_batch_spec K PAPI_read _ _ s1 h1.shape hok
    exact ⟨s2, hs2⟩
  · intro s2 hread
    exact round_trip_of_nodup K _ _ s1 s2 h1.shape hnodup e he i hi PAPI_read hread

/-- C10: handles are unambiguous.  With a counter library that refuses an event
that is already in the event set, for an adapter built from any list of
requested event names, two calls `push_signal(e1, CORE, i1)` and
`push_signal(e2, CORE, i2)` with `i1, i2 < core_count` that return the same
handle, on any two states of the adapter, have `e1 = e2` and `i1 = i2`. -/
theorem push_signal_handles_unambiguous (K : Host D) (L : PapiLibrary)
    (env_str : Option String) (s1 s2 t1 t2 : PapiIOGroup D)
    (h1 : Reachable K L env_str s1) (h2 : Reachable K L env_str s2)
    (hlib : refuses_repeated_event K L (event_names env_str))
    (e1 e2 : String) (i1 i2 : Nat) (hi1 : i1 < L.sockets * L.cores)
    (hi2 : i2 < L.sockets * L.cores) (handle : Int)
    (hp1 : push_signal K s1 e1 K.GEOPM_DOMAIN_CORE (i1 : Int) = Outcome.ok handle t1)
    (hp2 : push_signal K s2 e2 K.GEOPM_DOMAIN_CORE (i2 : Int) = Outcome.ok handle t2) :
    e1 = e2 ∧ i1 = i2 := by
  have hnodup := h1.event_names_nodup hlib (by omega)
  have he1 := push_signal_ok_requested K _ _ s1 t1 h1.shape e1 _ _ _ hp1
  have he2 := push_signal_ok_requested K _ _ s2 t2 h2.shape e2 _ _ _ hp2
  obtain ⟨u1, hu1⟩ := index_law_of_nodup K _ _ s1 h1.shape hnodup e1 he1 i1 hi1
  obtain ⟨u2, hu2⟩ := index_law_of_nodup K _ _ s2 h2.shape hnodup e2 he2 i2 hi2
  rw [hu1] at hp1
  rw [hu2] at hp2
  simp only [Outcome.ok.injEq] at hp1 hp2
  have hnat : i1 * (event_names env_str).length + (event_names env_str).indexOf e1 =
      i2 * (event_names env_str).length + (event_names env_str).indexOf e2 := by
    have := hp1.1.trans hp2.1.symm
    exact_mod_cast this
  obtain ⟨hi, hk⟩ := flat_index_injective _ _ _ _ _
    (List.indexOf_lt_length.mpr he1) (List.indexOf_lt_length.mpr he2) hnat
  exact ⟨(List.indexOf_inj he1 he2).mp hk, hi⟩

/-! ## The claims on the concrete adapters -/

/-- The adapter `two_core_adapter` is the one the constructor builds. -/
theorem two_core_adapter_reachable :
    Reachable demo_host (demo_library 2) (some "cycles instructions") two_core_adapter :=
  Reachable.construct rfl

/-- The set-up calls of `demo_library` succeed. -/
theorem demo_library_setup (n : Nat) : setup_succeeds demo_host (demo_library n) :=
  ⟨rfl, rfl, rfl, fun _ _ => ⟨rfl, rfl, rfl, rfl, rfl⟩⟩

/-- C3 on the adapter of two cores and two events: the buffer has four slots
and `sample(4)` throws. -/
theorem sample_bounds_check_witness :
    Reachable demo_host (demo_library 2) (some "cycles instructions") two_core_adapter ∧
    sample demo_host two_core_adapter 4 =
      Outcome.throws
        (Error.Exception ("PapiIOGroup::sample(): batch_idx " ++ toString (4 : Int) ++
          " not valid for PapiIOGroup") demo_host.GEOPM_ERROR_INVALID) two_core_adapter :=
  ⟨two_core_adapter_reachable,
    (sample_bounds_check demo_host (demo_library 2) (some "cycles instructions")
      two_core_adapter two_core_adapter_reachable 4).2.1 (Or.inr (by decide))⟩

/-- C4 on the adapter of two cores and two events: `"cycles"` is requested and
the domain type 4 is not the core domain, so both calls throw the
invalid-domain exception. -/
theorem signal_validation_witness :
    Reachable demo_host (demo_library 2) (some "cycles instructions") two_core_adapter ∧
    push_signal demo_host two_core_adapter "cycles" 4 1 =
      Outcome.throws
        (Error.Exception ("PapiIOGroup::push_signal(): domain_type " ++
          toString (4 : Int) ++ "not valid for PapiIOGroup")
          demo_host.GEOPM_ERROR_INVALID) two_core_adapter ∧
    read_signal demo_host two_core_adapter "cycles" 4 1 (demo_reads 1) =
      Outcome.throws
        (Error.Exception ("PapiIOGroup:read_signal(): domain_type " ++
          toString (4 : Int) ++ "not valid for PapiIOGroup")
          demo_host.GEOPM_ERROR_INVALID) two_core_adapter :=
  ⟨two_core_adapter_reachable,
    (signal_validation demo_host (demo_library 2) (some "cycles instructions")
      two_core_adapter two_core_adapter_reachable "cycles" 4 1 (demo_reads 1)).2.2
      (by decide) (by decide)⟩

/-- C6 on the adapter of two cores and two events. -/
theorem event_catalog_witness :
    Reachable demo_host (demo_library 2) (some "cycles instructions") two_core_adapter ∧
    signal_names two_core_adapter =
      (whitespace_separated_tokens "cycles instructions").toFinset :=
  ⟨two_core_adapter_reachable,
    (event_catalog demo_host (demo_library 2) "cycles instructions" two_core_adapter
      two_core_adapter_reachable).1⟩

/-- C7 on the adapter of two cores and two events: a `read_signal` of
`"instructions"` on core 1 returns the value read and keeps the sample buffer. -/
theorem sample_buffer_frame_witness :
    Reachable demo_host (demo_library 2) (some "cycles instructions") two_core_adapter ∧
    ∃ t, t.m_batch_values = two_core_adapter.m_batch_values ∧
      read_signal demo_host two_core_adapter "instructions" demo_host.GEOPM_DOMAIN_CORE 1
          (demo_reads 1) =
        Outcome.ok
          (demo_host.static_cast_double
            ((demo_reads 1).2
              ((event_names (some "cycles instructions")).indexOf "instructions"))) t :=
  ⟨two_core_adapter_reachable,
    (sample_buffer_frame demo_host (demo_library 2) (some "cycles instructions")
      two_core_adapter two_core_adapter_reachable "instructions"
      demo_host.GEOPM_DOMAIN_CORE 1 0 0 (demo_reads 1)).2.2.2.2.2.2.2.2
      (by decide) rfl (by decide) (by decide) rfl⟩

/-- C8 as stated fails on the adapter built with `GEOPM_PAPI_EVENTS` unset on a
machine of two cores: its sample buffer is empty and `sample(0)` throws. -/
theorem fresh_sample_without_events :
    construct demo_host (demo_library 2) none = Except.ok no_event_adapter ∧
    sample demo_host no_event_adapter 0 =
      Outcome.throws
        (Error.Exception "PapiIOGroup::sample(): batch_idx 0 not valid for PapiIOGroup" (-3))
        no_event_adapter ∧
    (sample demo_host no_event_adapter 0).value? ≠ some (demo_host.static_cast_double 0) :=
  ⟨rfl, by decide, by decide⟩

/-- C8 as amended, on the adapter of two cores and two events. -/
theorem fresh_sample_zero_witness :
    construct demo_host (demo_library 2) (some "cycles instructions") =
      Except.ok two_core_adapter ∧
    sample demo_host two_core_adapter 0 =
      Outcome.ok (demo_host.static_cast_double 0) two_core_adapter :=
  ⟨rfl,
    (fresh_sample_zero demo_host (demo_library 2) (some "cycles instructions")
      two_core_adapter rfl).2.1 (by decide)⟩

/-- C9 on a machine of two cores with `GEOPM_PAPI_EVENTS` unset. -/
theorem zero_signal_scenario_witness :
    ((none : Option String) = none ∨
      ∃ str, (none : Option String) = some str ∧ ∀ c ∈ str.data, isspace c = true) ∧
    setup_succeeds demo_host (demo_library 2) ∧
    ∃ s, construct demo_host (demo_library 2) none = Except.ok s ∧
      s.m_batch_values = [] ∧ signal_names s = ∅ :=
  ⟨Or.inl rfl, demo_library_setup 2,
    match zero_signal_scenario demo_host (demo_library 2) none (Or.inl rfl)
        (demo_library_setup 2) with
    | ⟨s, h1, _, _, _, h5, h6, _⟩ => ⟨s, h1, h5, h6⟩⟩

/-- The library `refusing_library n names` refuses the repeated events of `names`. -/
theorem refusing_library_refuses (n : Nat) (names : List String) :
    refuses_repeated_event demo_host (refusing_library n names) names := by
  intro core _ j2 _ j1 hlt heq
  have hany : (List.range j2).any (fun k => names[k]? == names[j2]?) = true := by
    rw [List.any_eq_true]
    exact ⟨j1, List.mem_range.mpr hlt, by simp [heq]⟩
  simp only [refusing_library, hany, if_true]
  decide

/-- The adapter `two_core_adapter` is also the one the constructor builds with
the refusing library. -/
theorem two_core_adapter_reachable_refusing :
    Reachable demo_host (refusing_library 2 (event_names (some "cycles instructions")))
      (some "cycles instructions") two_core_adapter :=
  Reachable.construct rfl

/-- With the refusing library the constructor throws on
`GEOPM_PAPI_EVENTS="a a b"`: the second add of `"a"` is refused on core 0. -/
theorem construct_repeated_name_refused :
    (construct demo_host (refusing_library 2 (event_names (some "a a b"))) (some "a a b") :
        Except Error (PapiIOGroup Int)) =
      Except.error
        (die ("PAPI_event_name_to_code(\"" ++ "a" ++ "\")" ++ "PAPI_add_event(\"" ++ "a" ++ "\")")
          (-8)) :=
  rfl

/-- C1 on the adapter of two cores and two events, with the refusing library:
`push_signal("instructions", CORE, 1)` returns `1 * 2 + 1`. -/
theorem push_signal_index_law_witness :
    Reachable demo_host (refusing_library 2 (event_names (some "cycles instructions")))
      (some "cycles instructions") two_core_adapter ∧
    refuses_repeated_event demo_host
      (refusing_library 2 (event_names (some "cycles instructions")))
      (event_names (some "cycles instructions")) ∧
    ∃ t, push_signal demo_host two_core_adapter "instructions" demo_host.GEOPM_DOMAIN_CORE
        ((1 : Nat) : Int) =
      Outcome.ok (((1 : Nat) : Int) * ((event_names (some "cycles instructions")).length : Int) +
        ((event_names (some "cycles instructions")).indexOf "instructions" : Int)) t :=
  ⟨two_core_adapter_reachable_refusing, refusing_library_refuses 2 _,
    match push_signal_index_law demo_host _ (some "cycles instructions") two_core_adapter
        two_core_adapter_reachable_refusing (refusing_library_refuses 2 _) "instructions"
        (by decide) 1 (by decide) with
    | ⟨t, ht, _⟩ => ⟨t, ht⟩⟩

/-- C2 on the adapter of two cores and two events, with the refusing library:
the handle of `"instructions"` on core 1 is returned, and a `read_batch` whose
reads succeed returns. -/
theorem push_read_sample_round_trip_witness :
    Reachable demo_host (refusing_library 2 (event_names (some "cycles instructions")))
      (some "cycles instructions") two_core_adapter ∧
    ∃ handle t,
      push_signal demo_host two_core_adapter "instructions" demo_host.GEOPM_DOMAIN_CORE
        ((1 : Nat) : Int) = Outcome.ok handle t ∧
      ∀ s2, read_batch demo_host t demo_reads = Outcome.ok () s2 →
        sample demo_host s2 handle =
          Outcome.ok
            (demo_host.static_cast_double
              ((demo_reads 1).2
                ((event_names (some "cycles instructions")).indexOf "instructions"))) s2 :=
  ⟨two_core_adapter_reachable_refusing,
    match push_read_sample_round_trip demo_host _ (some "cycles instructions")
        two_core_adapter two_core_adapter_reachable_refusing (refusing_library_refuses 2 _)
        "instructions" (by decide) 1 (by decide) with
    | ⟨handle, t, h1, h2, h3⟩ => ⟨handle, t, h1, (h3 t h2 demo_reads).2⟩⟩

/-- What `push_signal` returns on `two_core_adapter` for `"instructions"` on
core 1 and for `"cycles"` on core 1. -/
theorem two_core_adapter_push :
    push_signal demo_host two_core_adapter "instructions" demo_host.GEOPM_DOMAIN_CORE
        ((1 : Nat) : Int) =
      Outcome.ok 3
        { two_core_adapter with
          m_signals_per_core :=
            [[⟨"PAPI Counter: cycles", false⟩, ⟨"PAPI Counter: instructions", false⟩],
             [⟨"PAPI Counter: cycles", false⟩, ⟨"PAPI Counter: instructions", true⟩]] } := by
  decide

/-- C10 on the adapter of two cores and two events, with the refusing library:
two calls that both return the handle 3 are calls for the same event on the
same core. -/
theorem push_signal_handles_unambiguous_witness :
    Reachable demo_host (refusing_library 2 (event_names (some "cycles instructions")))
      (some "cycles instructions") two_core_adapter ∧
    refuses_repeated_event demo_host
      (refusing_library 2 (event_names (some "cycles instructions")))
      (event_names (some "cycles instructions")) ∧
    (push_signal demo_host two_core_adapter "instructions" demo_host.GEOPM_DOMAIN_CORE
      ((1 : Nat) : Int)).value? = some 3 ∧
    ("instructions" = "instructions" ∧ (1 : Nat) = 1) :=
  ⟨two_core_adapter_reachable_refusing, refusing_library_refuses 2 _,
    by rw [two_core_adapter_push]; rfl,
    push_signal_handles_unambiguous demo_host _ (some "cycles instructions")
      two_core_adapter two_core_adapter _ _ two_core_adapter_reachable_refusing
      two_core_adapter_reachable_refusing (refusing_library_refuses 2 _)
      "instructions" "instructions" 1 1 (by decide) (by decide) 3
      two_core_adapter_push two_core_adapter_push⟩

/-- The refusal of the counter library cannot be left out of C1, C2 and C10.
With the library `demo_library 2`, which accepts the second add of `"a"`, the
constructor builds an adapter from `GEOPM_PAPI_EVENTS="a a b"`, on which
`push_signal("b", CORE, 1)` returns 4, `push_signal("b", CORE, 0)` and
`push_signal("a", CORE, 1)` both return 2, and after a `read_batch` the slot 2
holds the value read for `"a"` on core 1. -/
theorem repeated_name_without_refusal :
    construct demo_host (demo_library 2) (some "a a b") = Except.ok repeated_name_adapter ∧
    (push_signal demo_host repeated_name_adapter "b" demo_host.GEOPM_DOMAIN_CORE 1).value? =
      some 4 ∧
    (push_signal demo_host repeated_name_adapter "a" demo_host.GEOPM_DOMAIN_CORE 1).value? =
      some 2 ∧
    push_signal demo_host repeated_name_adapter "b" demo_host.GEOPM_DOMAIN_CORE 0 =
      Outcome.ok 2 repeated_name_pushed ∧
    read_batch demo_host repeated_name_pushed demo_reads =
      Outcome.ok () repeated_name_read ∧
    sample demo_host repeated_name_read 2 = Outcome.ok 200 repeated_name_read :=
  ⟨rfl, by decide, by decide, by decide, by decide, by decide⟩

end PapiIOGroup
